import Mathlib

/-!
Shallow embedding of the LRCP server (src/sol-py/LRCP/sol.py) and the
Job Centre server (src/sol-py/job-centre/sol.py).

Conventions used throughout:
- Python byte strings and ASCII text strings are both modelled as `List Nat`
  (one element per byte / code point).  The server decodes every datagram as
  ASCII before any session code runs, so every character reaching a session is
  below 128 and `str.encode('latin-1')` is the identity on the model.
- Wall-clock time (`time.time()`) is threaded explicitly as a rational `now`
  parameter into every operation that reads the clock.
- Network sends (`socket.sendto`) are returned as an explicit list of
  `(destination address, packet fields)` events instead of performing I/O;
  peer addresses are modelled as opaque naturals.
- Python dictionaries are modelled as association lists (first key occurrence
  is the binding); `heapq` priority queues are modelled as lists kept sorted
  by the heap key, so that `pq[0]` is the head, `heappush` is ordered
  insertion and `heappop` removes the head — observably equivalent to the
  binary-heap implementation.
- Loops whose termination measure is not structural are given an explicit
  fuel argument; every call site passes fuel that strictly exceeds the
  maximal number of iterations the Python loop can perform.
-/

namespace LRCP

/-- Maximum datagram size: "LRCP messages must be smaller than 1000 bytes". -/
def MAX_PACKET_SIZE : Nat := 999

/-- Numeric field bound, 2^31. -/
def MAX_INT : Int := 2147483648

/-- Send window in raw bytes. -/
def SEND_WINDOW_SIZE : Nat := 4000

/-- Command word "data" as byte codes. -/
def strData : List Nat := [100, 97, 116, 97]

/-- Command word "ack" as byte codes. -/
def strAck : List Nat := [97, 99, 107]

/-- Command word "connect" as byte codes. -/
def strConnect : List Nat := [99, 111, 110, 110, 101, 99, 116]

/-- Command word "close" as byte codes. -/
def strClose : List Nat := [99, 108, 111, 115, 101]

/-- Decimal rendering of a natural, as byte codes (Python `str(n)` for `n ≥ 0`). -/
def natStr (n : Nat) : List Nat := (Nat.toDigits 10 n).map Char.toNat

/-- Decimal rendering of an integer, as byte codes (Python `str(i)`). -/
def intStr (i : Int) : List Nat :=
  if i < 0 then 45 :: natStr i.natAbs else natStr i.toNat

/-- Source `escape_char`: backslash (92) and forward slash (47) get a
backslash prefixed; every other byte is emitted unchanged. -/
def escape_char (c : Nat) : List Nat :=
  if c = 92 then [92, 92] else if c = 47 then [92, 47] else [c]

/-- Source `unescape_data`: replaces the two escape pairs; a backslash that is
not followed by a backslash or slash (including a trailing backslash) is kept
literally and scanning resumes at the next character.  Note the Python
function never raises. -/
def unescape_data : List Nat → List Nat
  | [] => []
  | 92 :: 92 :: rest => 92 :: unescape_data rest
  | 92 :: 47 :: rest => 47 :: unescape_data rest
  | 92 :: rest => 92 :: unescape_data rest
  | c :: rest => c :: unescape_data rest

/-- Interior field splitter of `split_lrcp_message`: splits on unescaped `/`,
where a backslash keeps itself and the following character raw in the current
field.  The accumulator holds the current field reversed. -/
def split_fields : List Nat → List Nat → List (List Nat)
  | [], cur => [cur.reverse]
  | 92 :: c :: rest, cur => split_fields rest (c :: 92 :: cur)
  | [92], cur => [(92 :: cur).reverse]
  | 47 :: rest, cur => cur.reverse :: split_fields rest []
  | c :: rest, cur => split_fields rest (c :: cur)

/-- Source `split_lrcp_message`: requires a leading and trailing `/`, then
splits the interior into fields. -/
def split_lrcp_message (msg : List Nat) : Option (List (List Nat)) :=
  if msg.head? = some 47 ∧ msg.getLast? = some 47 then
    some (split_fields ((msg.drop 1).dropLast) [])
  else none

/-- Whitespace characters stripped by Python `int(str)` (ASCII subset). -/
def isPySpace (c : Nat) : Bool :=
  c = 32 || c = 9 || c = 10 || c = 13 || c = 12 || c = 11

/-- ASCII decimal digit test. -/
def isDigit (c : Nat) : Bool := 48 ≤ c && c ≤ 57

/-- Digit-run evaluator for Python `int(str)`: digits with single underscores
allowed between two digits.  The first character is checked by the caller. -/
def digitsVal : List Nat → Nat → Option Nat
  | [], acc => some acc
  | 95 :: d :: rest, acc =>
    if isDigit d then digitsVal rest (acc * 10 + (d - 48)) else none
  | [95], _ => none
  | c :: rest, acc =>
    if isDigit c then digitsVal rest (acc * 10 + (c - 48)) else none

/-- Python `int(str)` on ASCII input: strips whitespace, allows one optional
sign, then a digit run (underscores permitted between digits).  Returns
`none` where Python raises `ValueError`.  In particular `"-5"` parses to the
negative integer `-5`. -/
def pyInt (s : List Nat) : Option Int :=
  let t := ((s.dropWhile isPySpace).reverse.dropWhile isPySpace).reverse
  match t with
  | 43 :: c :: rest =>
    if isDigit c then (digitsVal (c :: rest) 0).map Int.ofNat else none
  | 45 :: c :: rest =>
    if isDigit c then (digitsVal (c :: rest) 0).map (fun n => -(n : Int)) else none
  | c :: rest =>
    if isDigit c then (digitsVal (c :: rest) 0).map Int.ofNat else none
  | [] => none

/-- Per-peer transport state of `LRCPSession` (the socket reference is
replaced by the explicit send-event model). -/
structure LRCPSession where
  session_id : Int
  addr : Nat
  is_closed : Bool
  last_activity_time : ℚ
  last_retransmit_time : ℚ
  bytes_received : Nat
  bytes_sent_acked : Nat
  tx_buffer : List Nat
  rx_buffer : List Nat
deriving DecidableEq

/-- Fields of an LRCP packet as handed to `send_packet`. -/
abbrev Msg := List (List Nat)

/-- Wire rendering of `send_packet`: `"/" + "/".join(parts) + "/"`. -/
def wire (parts : Msg) : List Nat := 47 :: (List.intercalate [47] parts ++ [47])

/-- Fields of an `ack` packet for the current session state (`send_ack`). -/
def send_ack_parts (s : LRCPSession) : Msg :=
  [strAck, intStr s.session_id, natStr s.bytes_received]

/-- Source `LRCPSession.close`: emit a `close` packet once and mark closed. -/
def close_session (s : LRCPSession) : LRCPSession × List Msg :=
  if s.is_closed then (s, [])
  else ({ s with is_closed := true }, [[strClose, intStr s.session_id]])

/-- Header string `"/data/{sid}/{pos}/"` computed by `retransmit_data` for a
packet at absolute position `pos`. -/
def headerList (sid : Int) (pos : Nat) : List Nat :=
  47 :: strData ++ [47] ++ intStr sid ++ [47] ++ natStr pos ++ [47]

/-- Inner greedy-packing loop of `retransmit_data`: walks the remaining
buffer, charging 2 wire characters for bytes 92 and 47 and 1 otherwise,
stopping before the chunk would exceed `available`.  Returns the escaped
chunk (reversed, mirroring list-append then join) and the count of raw bytes
packed. -/
def pack_greedy (available : Nat) : List Nat → List Nat → Nat → Nat → List Nat × Nat
  | [], chunkRev, _, packed => (chunkRev, packed)
  | c :: rest, chunkRev, chunkChars, packed =>
    let cost : Nat := if c = 92 ∨ c = 47 then 2 else 1
    if chunkChars + cost > available then (chunkRev, packed)
    else pack_greedy available rest ((escape_char c).reverse ++ chunkRev) (chunkChars + cost) (packed + 1)

/-- Outer pipelining loop of `retransmit_data`: while the offset is inside
the buffer and below the send window, build one packet at absolute position
`base + offset` and advance by the raw bytes packed.  Returns the
`(absolute position, escaped payload)` of each emitted packet.  The fuel
strictly exceeds the possible iteration count (offset strictly increases). -/
def retransmit_loop (sid : Int) (base : Nat) (tx : List Nat) : Nat → Nat → List (Nat × List Nat)
  | 0, _ => []
  | fuel + 1, buffer_offset =>
    if buffer_offset < tx.length ∧ buffer_offset < SEND_WINDOW_SIZE then
      if (MAX_PACKET_SIZE : Int) - (headerList sid (base + buffer_offset)).length - 1 ≤ 0 then []
      else
        if (pack_greedy ((MAX_PACKET_SIZE : Int) - (headerList sid (base + buffer_offset)).length - 1).toNat
              (tx.drop buffer_offset) [] 0 0).2 = 0 then []
        else
          (base + buffer_offset,
           (pack_greedy ((MAX_PACKET_SIZE : Int) - (headerList sid (base + buffer_offset)).length - 1).toNat
              (tx.drop buffer_offset) [] 0 0).1.reverse)
            :: retransmit_loop sid base tx fuel
                (buffer_offset +
                 (pack_greedy ((MAX_PACKET_SIZE : Int) - (headerList sid (base + buffer_offset)).length - 1).toNat
                    (tx.drop buffer_offset) [] 0 0).2)
    else []

/-- Fields of one `data` packet as passed to `send_packet`. -/
def dataParts (sid : Int) (pos : Nat) (chunk : List Nat) : Msg :=
  [strData, intStr sid, natStr pos, chunk]

/-- Source `LRCPSession.retransmit_data`: windowed send of the pending
buffer, then stamp `last_retransmit_time`. -/
def retransmit_data (s : LRCPSession) (now : ℚ) : LRCPSession × List Msg :=
  if s.tx_buffer = [] then (s, [])
  else
    let pkts := retransmit_loop s.session_id s.bytes_sent_acked s.tx_buffer (s.tx_buffer.length + 1) 0
    ({ s with last_retransmit_time := now },
     pkts.map (fun p => dataParts s.session_id p.1 p.2))

/-- Splits off the prefix of the buffer up to (excluding) the first newline
byte 10, mirroring `rx_buffer.split(b'\n', 1)`; `none` when no newline. -/
def split_first_nl : List Nat → Option (List Nat × List Nat)
  | [] => none
  | 10 :: rest => some ([], rest)
  | c :: rest =>
    match split_first_nl rest with
    | none => none
    | some (line, rem) => some (c :: line, rem)

/-- Newline-splitting loop of `process_application_data`: each complete line
is reversed and appended (newline-terminated) to the transmit buffer; a line
with a non-ASCII byte is removed from the receive buffer but produces no
output (`UnicodeDecodeError` branch).  Fuel `rx.length` strictly bounds the
iteration count since every iteration consumes at least the newline byte. -/
def process_lines : Nat → List Nat → List Nat → List Nat × List Nat
  | 0, rx, tx => (rx, tx)
  | fuel + 1, rx, tx =>
    match split_first_nl rx with
    | none => (rx, tx)
    | some (line, rem) =>
      let tx' := if line.all (fun c => decide (c < 128)) then tx ++ line.reverse ++ [10] else tx
      process_lines fuel rem tx'

/-- Source `LRCPSession.process_application_data`: consume complete lines
from the receive buffer, then transmit immediately if anything is pending. -/
def process_application_data (s : LRCPSession) (now : ℚ) : LRCPSession × List Msg :=
  let p := process_lines s.rx_buffer.length s.rx_buffer s.tx_buffer
  let s1 := { s with rx_buffer := p.1, tx_buffer := p.2 }
  if s1.tx_buffer ≠ [] then retransmit_data s1 now else (s1, [])

/-- Source `LRCPSession.handle_data_packet`.  The `try/except` around
`unescape_data` is dead code since the Python function never raises; the
`latin-1` encode is the identity because all inbound characters are ASCII. -/
def handle_data_packet (s : LRCPSession) (pos : Int) (payload_str : List Nat) (now : ℚ) : LRCPSession × List Msg :=
  let payload := unescape_data payload_str
  let length := payload.length
  if pos = (s.bytes_received : Int) then
    let s1 := { s with bytes_received := s.bytes_received + length,
                       rx_buffer := s.rx_buffer ++ payload }
    let r := process_application_data s1 now
    (r.1, r.2 ++ [send_ack_parts r.1])
  else (s, [send_ack_parts s])

/-- Source `LRCPSession.handle_ack_packet`. -/
def handle_ack_packet (s : LRCPSession) (len : Int) (now : ℚ) : LRCPSession × List Msg :=
  let total : Int := (s.bytes_sent_acked : Int) + (s.tx_buffer.length : Int)
  if len > total then close_session s
  else if len > (s.bytes_sent_acked : Int) then
    let acked := (len - (s.bytes_sent_acked : Int)).toNat
    let s1 := { s with tx_buffer := s.tx_buffer.drop acked,
                       bytes_sent_acked := len.toNat,
                       last_retransmit_time := now }
    if s1.tx_buffer ≠ [] then retransmit_data s1 now else (s1, [])
  else if len = (s.bytes_sent_acked : Int) then
    if s.tx_buffer ≠ [] ∧ now - s.last_retransmit_time > 1/5 then retransmit_data s now
    else (s, [])
  else (s, [])

/-- Fresh session as built by `LRCPSession.__init__`. -/
def newSession (sid : Int) (addr : Nat) (now : ℚ) : LRCPSession :=
  { session_id := sid
    addr := addr
    is_closed := false
    last_activity_time := now
    last_retransmit_time := now
    bytes_received := 0
    bytes_sent_acked := 0
    tx_buffer := []
    rx_buffer := [] }

/-- Server state: the `sessions` dictionary as an association list. -/
structure LRCPServer where
  sessions : List (Int × LRCPSession)
deriving DecidableEq

/-- Dictionary lookup on the sessions map. -/
def lookupSess : List (Int × LRCPSession) → Int → Option LRCPSession
  | [], _ => none
  | (k, s) :: rest, sid => if k = sid then some s else lookupSess rest sid

/-- Dictionary write `sessions[sid] = s`. -/
def setSess : List (Int × LRCPSession) → Int → LRCPSession → List (Int × LRCPSession)
  | [], sid, s => [(sid, s)]
  | (k, t) :: rest, sid, s =>
    if k = sid then (sid, s) :: rest else (k, t) :: setSess rest sid s

/-- Dictionary removal `sessions.pop(sid, None)`. -/
def popSess (l : List (Int × LRCPSession)) (sid : Int) : List (Int × LRCPSession) :=
  l.filter (fun p => p.1 != sid)

/-- A send event: destination address paired with the packet fields. -/
abbrev Sent := Nat × Msg

/-- Source `LRCPServer.handle_connect`: create the session when absent, then
ack with the (existing or fresh) session's `bytes_received`, addressed to the
session's bound address. -/
def handle_connect (srv : LRCPServer) (sid : Int) (addr : Nat) (now : ℚ) : LRCPServer × List Sent :=
  let sessions :=
    match lookupSess srv.sessions sid with
    | some _ => srv.sessions
    | none => setSess srv.sessions sid (newSession sid addr now)
  match lookupSess sessions sid with
  | some s => (⟨sessions⟩, [(s.addr, send_ack_parts s)])
  | none => (⟨sessions⟩, [])

/-- Command arity table of `handle_packet`. -/
def cmdOk (cmd : List Nat) (n : Nat) : Bool :=
  if cmd = strConnect then n == 2
  else if cmd = strClose then n == 2
  else if cmd = strAck then n == 3
  else if cmd = strData then n == 4
  else false

/-- Source `LRCPServer.handle_packet`: size and ASCII guards, framing parse,
arity check, numeric-field parsing with only the `≥ 2^31` upper-bound check,
connect dispatch, unknown-session close reply, peer-address check, activity
touch, then per-command dispatch. -/
def handle_packet (srv : LRCPServer) (raw : List Nat) (addr : Nat) (now : ℚ) : LRCPServer × List Sent :=
  if raw.length > MAX_PACKET_SIZE then (srv, [])
  else if !(raw.all (fun c => decide (c < 128))) then (srv, [])
  else
    match split_lrcp_message raw with
    | none => (srv, [])
    | some parts =>
      match parts with
      | [] => (srv, [])
      | cmd :: args =>
        if !cmdOk cmd parts.length then (srv, [])
        else
          match pyInt (args.headD []) with
          | none => (srv, [])
          | some sid =>
            if sid ≥ MAX_INT then (srv, [])
            else if cmd = strConnect then handle_connect srv sid addr now
            else
              match lookupSess srv.sessions sid with
              | none =>
                if cmd ≠ strClose then (srv, [(addr, [strClose, intStr sid])])
                else (srv, [])
              | some sess =>
                if sess.addr ≠ addr then (srv, [])
                else
                  let sessT := { sess with last_activity_time := now }
                  let srvT : LRCPServer := ⟨setSess srv.sessions sid sessT⟩
                  if cmd = strData then
                    match pyInt ((args.drop 1).headD []) with
                    | none => (srvT, [])
                    | some pos =>
                      if pos ≥ MAX_INT then (srvT, [])
                      else
                        let r := handle_data_packet sessT pos ((args.drop 2).headD []) now
                        (⟨setSess srvT.sessions sid r.1⟩, r.2.map (fun m => (r.1.addr, m)))
                  else if cmd = strAck then
                    match pyInt ((args.drop 1).headD []) with
                    | none => (srvT, [])
                    | some len =>
                      if len ≥ MAX_INT then (srvT, [])
                      else
                        let r := handle_ack_packet sessT len now
                        (⟨setSess srvT.sessions sid r.1⟩, r.2.map (fun m => (r.1.addr, m)))
                  else
                    let r := close_session sessT
                    (⟨popSess srvT.sessions sid⟩, r.2.map (fun m => (r.1.addr, m)))

end LRCP

namespace JobCentre

/-- JSON values as produced by `json.loads` on one request line.  Object
fields are listed in insertion order; a parsed Python dict has unique keys. -/
inductive JVal where
  | jnull
  | jbool (b : Bool)
  | jint (n : Int)
  | jstr (s : String)
  | jarr (xs : List JVal)
  | jobj (fields : List (String × JVal))

/-- The `Job` object: identity, priority, owning queue, payload and the two
mutable state fields.  Workers (client handlers) are identified by naturals. -/
structure Job where
  id : Nat
  priority : Int
  queue_name : String
  payload : JVal
  is_deleted : Bool
  worker : Option Nat

/-- One heap tuple `(-priority, tie_breaker, job)`; the job object reference
is modelled by its id, resolved through the object store. -/
structure HeapEntry where
  negPri : Int
  tie : Nat
  jobId : Nat
deriving DecidableEq

/-- State of `JobQueueServer`.  `objs` is the Python object graph: every Job
ever constructed, keyed by id, never removed (heap tuples keep referencing a
Job after it leaves the `jobs` dict).  `jobsDict` is the key set of
`self.jobs`.  `waiters` maps queue names to the futures registered on them;
`doneSet` records the futures on which `done()` is true and `handoffs`
records every `future.set_result(job)` event. -/
structure Store where
  id_counter : Nat
  objs : List (Nat × Job)
  jobsDict : List Nat
  queues : List (String × List HeapEntry)
  tie_breaker : Nat
  waiters : List (String × List Nat)
  doneSet : List Nat
  handoffs : List (Nat × Nat)

/-- Lookup in the object store. -/
def lookupJob : List (Nat × Job) → Nat → Option Job
  | [], _ => none
  | (k, j) :: rest, i => if k = i then some j else lookupJob rest i

/-- Write-through update of one Job object (attribute mutation). -/
def setJob : List (Nat × Job) → Nat → Job → List (Nat × Job)
  | [], i, j => [(i, j)]
  | (k, t) :: rest, i, j => if k = i then (i, j) :: rest else (k, t) :: setJob rest i j

/-- Queue-map lookup. -/
def lookupQ : List (String × List HeapEntry) → String → Option (List HeapEntry)
  | [], _ => none
  | (k, pq) :: rest, q => if k = q then some pq else lookupQ rest q

/-- Queue-map write. -/
def setQ : List (String × List HeapEntry) → String → List HeapEntry → List (String × List HeapEntry)
  | [], q, pq => [(q, pq)]
  | (k, t) :: rest, q, pq => if k = q then (q, pq) :: rest else (k, t) :: setQ rest q pq

/-- Waiter-map lookup. -/
def lookupW : List (String × List Nat) → String → Option (List Nat)
  | [], _ => none
  | (k, ws) :: rest, q => if k = q then some ws else lookupW rest q

/-- Waiter-map write. -/
def setW : List (String × List Nat) → String → List Nat → List (String × List Nat)
  | [], q, ws => [(q, ws)]
  | (k, t) :: rest, q, ws => if k = q then (q, ws) :: rest else (k, t) :: setW rest q ws

/-- Waiter-map key deletion. -/
def delW (l : List (String × List Nat)) (q : String) : List (String × List Nat) :=
  l.filter (fun p => p.1 ≠ q)

/-- Min-heap key order on `(-priority, tie)` tuples (lexicographic; the tie
counter is globally unique so job objects are never compared). -/
def keyLe (a b : HeapEntry) : Bool :=
  a.negPri < b.negPri || (a.negPri == b.negPri && a.tie ≤ b.tie)

/-- Model of `heapq.heappush` on the sorted-list representation. -/
def heapInsert (e : HeapEntry) : List HeapEntry → List HeapEntry
  | [] => [e]
  | x :: xs => if keyLe e x then e :: x :: xs else x :: heapInsert e xs

/-- Source `JobQueueServer._push_to_queue`. -/
def push_to_queue (st : Store) (job : Job) : Store :=
  let pq := (lookupQ st.queues job.queue_name).getD []
  let e : HeapEntry := ⟨-job.priority, st.tie_breaker, job.id⟩
  { st with queues := setQ st.queues job.queue_name (heapInsert e pq),
            tie_breaker := st.tie_breaker + 1 }

/-- Stale heap entry: its job is deleted or already assigned to a worker
(§ lazy cleanup).  A missing object is impossible for reachable stores. -/
def isStale (objs : List (Nat × Job)) (e : HeapEntry) : Bool :=
  match lookupJob objs e.jobId with
  | some j => j.is_deleted || j.worker.isSome
  | none => false

/-- The while-loop of `_notify_waiters`: pop futures until a live one is
found.  Returns the chosen future (if any) and the remaining set. -/
def notifyLoop (done : List Nat) : List Nat → Option Nat × List Nat
  | [] => (none, [])
  | w :: rest => if w ∈ done then notifyLoop done rest else (some w, rest)

/-- Source `JobQueueServer._notify_waiters`: hand the job to a live waiter
registered on its queue.  On success the future becomes done, the handoff is
recorded, and the queue's waiter key is deleted when its set emptied; on
failure the popped (all-done) futures stay removed but the key remains. -/
def notify_waiters (st : Store) (job : Job) : Store × Bool :=
  match lookupW st.waiters job.queue_name with
  | none => (st, false)
  | some ws =>
    match notifyLoop st.doneSet ws with
    | (none, _) => ({ st with waiters := setW st.waiters job.queue_name [] }, false)
    | (some w, rest) =>
      let waiters' := if rest.isEmpty then delW st.waiters job.queue_name
                      else setW st.waiters job.queue_name rest
      ({ st with waiters := waiters',
                 doneSet := w :: st.doneSet,
                 handoffs := (w, job.id) :: st.handoffs }, true)

/-- Source `JobQueueServer.put`: allocate the id, construct and register the
Job, then hand off to a waiter if one is live, otherwise push to the heap. -/
def put (st : Store) (priority : Int) (queue_name : String) (payload : JVal) : Store × Nat :=
  let job_id := st.id_counter
  let job : Job := ⟨job_id, priority, queue_name, payload, false, none⟩
  let st1 := { st with id_counter := st.id_counter + 1,
                       objs := st.objs ++ [(job_id, job)],
                       jobsDict := st.jobsDict ++ [job_id] }
  match notify_waiters st1 job with
  | (st2, true) => (st2, job_id)
  | (st2, false) => (push_to_queue st2 job, job_id)

/-- Lazy cleanup of the top of one heap: `while pq and stale(pq[0]): heappop`. -/
def dropStale (objs : List (Nat × Job)) (pq : List HeapEntry) : List HeapEntry :=
  pq.dropWhile (isStale objs)

/-- Comparison against `best_priority`, whose initial value is `-inf`. -/
def gtOpt (c : Int) : Option Int → Bool
  | none => true
  | some b => decide (c > b)

/-- Scanning loop of `get_nowait` over the requested queue names, carrying
`(best_priority, best_queue)`; cleans the top of each scanned queue in
place. -/
def scan : Store → List String → Option Int → Option String → Store × Option Int × Option String
  | st, [], bp, bq => (st, bp, bq)
  | st, q :: rest, bp, bq =>
    match lookupQ st.queues q with
    | none => scan st rest bp bq
    | some pq =>
      if pq.isEmpty then scan st rest bp bq
      else
        let pq' := dropStale st.objs pq
        let st' := { st with queues := setQ st.queues q pq' }
        match pq' with
        | [] => scan st' rest bp bq
        | e :: _ =>
          let cur := -e.negPri
          if gtOpt cur bp then scan st' rest (some cur) (some q)
          else scan st' rest bp bq

/-- Source `JobQueueServer.get_nowait`: scan, then pop the top of the best
queue.  Mirrors the Python truthiness test `if best_queue:` (both `None` and
the empty string are falsy).  Returns the popped heap entry. -/
def get_nowait (st : Store) (queue_names : List String) : Store × Option HeapEntry :=
  match scan st queue_names none none with
  | (st', _, some q) =>
    if q = "" then (st', none)
    else
      match lookupQ st'.queues q with
      | some (e :: restPq) => ({ st' with queues := setQ st'.queues q restPq }, some e)
      | _ => (st', none)
  | (st', _, none) => (st', none)

/-- Source `JobQueueServer.delete` on a (non-negative) job id.  Returns the
new store, the success flag and the worker that held the job (whose owned
set the caller must update). -/
def delete (st : Store) (job_id : Nat) : Store × Bool × Option Nat :=
  if !(st.jobsDict.contains job_id) then (st, false, none)
  else
    match lookupJob st.objs job_id with
    | none => (st, false, none)
    | some job =>
      if job.is_deleted then (st, false, none)
      else
        let st1 := { st with
          objs := setJob st.objs job_id { job with is_deleted := true, worker := none },
          jobsDict := st.jobsDict.filter (fun i => i != job_id) }
        (st1, true, job.worker)

/-- Source `JobQueueServer.abort` on a (non-negative) job id for `client`. -/
def abort (st : Store) (job_id : Nat) (client : Nat) : Store × Bool :=
  if !(st.jobsDict.contains job_id) then (st, false)
  else
    match lookupJob st.objs job_id with
    | none => (st, false)
    | some job =>
      if job.is_deleted then (st, false)
      else if job.worker ≠ some client then (st, false)
      else
        let job' := { job with worker := none }
        let st1 := { st with objs := setJob st.objs job_id job' }
        match notify_waiters st1 job' with
        | (st2, true) => (st2, true)
        | (st2, false) => (push_to_queue st2 job', true)

/-- Client-supplied ids arrive as Python ints; a negative id is simply not a
key of the jobs dict. -/
def deleteI (st : Store) (job_id : Int) : Store × Bool × Option Nat :=
  if job_id < 0 then (st, false, none) else delete st job_id.toNat

/-- Abort wrapper for a client-supplied integer id. -/
def abortI (st : Store) (job_id : Int) (client : Nat) : Store × Bool :=
  if job_id < 0 then (st, false) else abort st job_id.toNat client

/-- Connection-level state: the shared store, each client's `working_jobs`
set and a counter allocating identities for waiter futures. -/
structure JC where
  st : Store
  working : List (Nat × List Nat)
  next_future : Nat

/-- Lookup of a client's owned-jobs set. -/
def lookupwk : List (Nat × List Nat) → Nat → Option (List Nat)
  | [], _ => none
  | (k, js) :: rest, c => if k = c then some js else lookupwk rest c

/-- Write of a client's owned-jobs set. -/
def setwk : List (Nat × List Nat) → Nat → List Nat → List (Nat × List Nat)
  | [], c, js => [(c, js)]
  | (k, t) :: rest, c, js => if k = c then (c, js) :: rest else (k, t) :: setwk rest c js

/-- Add a job id to a client's `working_jobs` set. -/
def addWorking (w : List (Nat × List Nat)) (client : Nat) (jid : Nat) : List (Nat × List Nat) :=
  let cur := (lookupwk w client).getD []
  if cur.contains jid then w else setwk w client (cur ++ [jid])

/-- Discard a job id from a client's `working_jobs` set. -/
def discardWorking (w : List (Nat × List Nat)) (client : Option Nat) (jid : Nat) : List (Nat × List Nat) :=
  match client with
  | none => w
  | some c => setwk w c (((lookupwk w c).getD []).filter (fun i => i != jid))

/-- First-match field lookup on a parsed JSON object (keys are unique after
`json.loads`). -/
def lookupField : List (String × JVal) → String → Option JVal
  | [], _ => none
  | (k, v) :: rest, f => if k = f then some v else lookupField rest f

/-- Python truthiness of a JSON value (used on the `wait` field). -/
def jTruthy : JVal → Bool
  | .jnull => false
  | .jbool b => b
  | .jint n => n != 0
  | .jstr s => !(s == "")
  | .jarr xs => !xs.isEmpty
  | .jobj fs => !fs.isEmpty

/-- Python `isinstance(x, int)` on a JSON value: booleans are ints. -/
def pyIsInt : JVal → Bool
  | .jint _ => true
  | .jbool _ => true
  | _ => false

/-- Integer value of a JSON int-like (`True == 1`, `False == 0`). -/
def pyIntVal : JVal → Int
  | .jint n => n
  | .jbool b => if b then 1 else 0
  | _ => 0

/-- Error response `{"status": "error", "error": msg}`. -/
def errResp (msg : String) : JVal :=
  .jobj [("status", .jstr "error"), ("error", .jstr msg)]

/-- Response `{"status": "ok", "id": id}` of a successful put. -/
def okPutResp (id : Nat) : JVal :=
  .jobj [("status", .jstr "ok"), ("id", .jint id)]

/-- Response of a successful get: `job.to_json()` plus `status`. -/
def okGetResp (job : Job) : JVal :=
  .jobj [("id", .jint job.id), ("pri", .jint job.priority),
         ("queue", .jstr job.queue_name), ("job", job.payload),
         ("status", .jstr "ok")]

/-- Response `{"status": "no-job"}`. -/
def noJobResp : JVal := .jobj [("status", .jstr "no-job")]

/-- Response `{"status": "ok"}`. -/
def okResp : JVal := .jobj [("status", .jstr "ok")]

/-- One request line after `json.loads`: either a JSON decode failure or the
parsed value. -/
inductive LineInput where
  | badJson
  | val (v : JVal)

/-- Outcome of processing one request line in `ClientHandler.run`:
a reply with the connection kept open, a suspension (`get` with truthy
`wait` and no job), or an uncaught exception that breaks the read loop and
closes the connection (followed by the disconnect cleanup) without sending
anything. -/
inductive StepResult where
  | reply (resp : JVal) (jc : JC)
  | blocked (jc : JC)
  | crash (jc : JC)

/-- Registration of a waiter future on every requested queue
(`waiters[q].add(future)`; a set ignores duplicates). -/
def registerWaiter (st : Store) (fid : Nat) : List String → Store
  | [] => st
  | q :: rest =>
    let cur := (lookupW st.waiters q).getD []
    let st' := if cur.contains fid then st
               else { st with waiters := setW st.waiters q (cur ++ [fid]) }
    registerWaiter st' fid rest

/-- Source `ClientHandler.handle_put`. -/
def handle_put (jc : JC) (req : List (String × JVal)) : StepResult :=
  match lookupField req "queue", lookupField req "job", lookupField req "pri" with
  | some qv, some payload, some priv =>
    match qv with
    | .jstr qs =>
      if pyIsInt priv ∧ pyIntVal priv ≥ 0 then
        let r := put jc.st (pyIntVal priv) qs payload
        .reply (okPutResp r.2) { jc with st := r.1 }
      else .reply (errResp "Invalid arguments for 'put'") jc
    | _ => .reply (errResp "Invalid arguments for 'put'") jc
  | _, _, _ => .reply (errResp "Invalid arguments for 'put'") jc

/-- String-array check of `handle_get` (`all(isinstance(q, str) for q in queues)`). -/
def allStrings (xs : List JVal) : Bool :=
  xs.all (fun e => match e with | .jstr _ => true | _ => false)

/-- String values of a JSON array of strings. -/
def stringsOf (xs : List JVal) : List String :=
  xs.filterMap (fun e => match e with | .jstr s => some s | _ => none)

/-- Source `ClientHandler.handle_get` up to the first suspension point: on a
hit the job is assigned to the client and replied; on a miss with truthy
`wait` the future is registered on every named queue and the handler
suspends; otherwise `no-job`. -/
def handle_get (jc : JC) (client : Nat) (req : List (String × JVal)) : StepResult :=
  match lookupField req "queues" with
  | none => .reply (errResp "Invalid arguments for 'get'") jc
  | some qsv =>
    let wait := (lookupField req "wait").getD (.jbool false)
    match qsv with
    | .jarr elems =>
      if allStrings elems then
        let names := stringsOf elems
        let r := get_nowait jc.st names
        match r.2 with
        | some e =>
          match lookupJob r.1.objs e.jobId with
          | some job =>
            let st2 := { r.1 with objs := setJob r.1.objs e.jobId { job with worker := some client } }
            .reply (okGetResp job) { jc with st := st2, working := addWorking jc.working client job.id }
          | none => .crash jc
        | none =>
          if jTruthy wait then
            let fid := jc.next_future
            .blocked { jc with st := registerWaiter r.1 fid names, next_future := fid + 1 }
          else .reply noJobResp { jc with st := r.1 }
      else .reply (errResp "Invalid arguments for 'get'") jc
    | _ => .reply (errResp "Invalid arguments for 'get'") jc

/-- Source `ClientHandler.handle_delete`. -/
def handle_delete (jc : JC) (req : List (String × JVal)) : StepResult :=
  match lookupField req "id" with
  | none => .reply (errResp "Invalid arguments for 'delete'") jc
  | some idv =>
    if pyIsInt idv then
      let r := deleteI jc.st (pyIntVal idv)
      if r.2.1 then
        .reply okResp { jc with st := r.1,
                                working := discardWorking jc.working r.2.2 (pyIntVal idv).toNat }
      else .reply noJobResp { jc with st := r.1 }
    else .reply (errResp "Invalid arguments for 'delete'") jc

/-- Source `ClientHandler.handle_abort`. -/
def handle_abort (jc : JC) (client : Nat) (req : List (String × JVal)) : StepResult :=
  match lookupField req "id" with
  | none => .reply (errResp "Invalid arguments for 'abort'") jc
  | some idv =>
    if pyIsInt idv then
      let r := abortI jc.st (pyIntVal idv) client
      if r.2 then
        .reply okResp { jc with st := r.1,
                                working := discardWorking jc.working (some client) (pyIntVal idv).toNat }
      else .reply noJobResp { jc with st := r.1 }
    else .reply (errResp "Invalid arguments for 'abort'") jc

/-- One iteration of the request loop in `ClientHandler.run`: decode, read
the `request` field and dispatch.  `req_obj.get` on a non-dict JSON value
raises `AttributeError`, which the loop's `except Exception` turns into a
silent disconnect. -/
def handle_line (jc : JC) (client : Nat) (input : LineInput) : StepResult :=
  match input with
  | .badJson => .reply (errResp "Invalid JSON") jc
  | .val v =>
    match v with
    | .jobj fields =>
      match lookupField fields "request" with
      | some (.jstr "put") => handle_put jc fields
      | some (.jstr "get") => handle_get jc client fields
      | some (.jstr "delete") => handle_delete jc fields
      | some (.jstr "abort") => handle_abort jc client fields
      | _ => .reply (errResp "Unknown request type") jc
    | _ => .crash jc

/-- Empty store at server start. -/
def initStore : Store :=
  { id_counter := 1, objs := [], jobsDict := [], queues := [],
    tie_breaker := 0, waiters := [], doneSet := [], handoffs := [] }

/-- Fresh connection-level state. -/
def initJC : JC := { st := initStore, working := [], next_future := 0 }

/-- Cleaned view of one queue: what the scan of `get_nowait` leaves at its
head.  A missing queue and an empty queue both clean to the empty list. -/
def cleanedTop (st : Store) (q : String) : Option HeapEntry :=
  (dropStale st.objs ((lookupQ st.queues q).getD [])).head?

/-- Reference accumulator describing how the scan of `get_nowait` tracks
`(best_priority, best_queue)`: each queue's cleaned top competes with a
strict comparison, so a later queue only displaces an earlier one with a
strictly higher priority. -/
def bestFold (st : Store) : List String → Option Int × Option String → Option Int × Option String
  | [], acc => acc
  | q :: rest, (bp, bq) =>
    match cleanedTop st q with
    | none => bestFold st rest (bp, bq)
    | some e =>
      if gtOpt (-e.negPri) bp then bestFold st rest (some (-e.negPri), some q)
      else bestFold st rest (bp, bq)

end JobCentre

/-! ## Helper lemmas -/

namespace LRCP

theorem session_eta (s : LRCPSession) :
    ({ session_id := s.session_id, addr := s.addr, is_closed := s.is_closed,
       last_activity_time := s.last_activity_time,
       last_retransmit_time := s.last_retransmit_time,
       bytes_received := s.bytes_received, bytes_sent_acked := s.bytes_sent_acked,
       tx_buffer := s.tx_buffer, rx_buffer := s.rx_buffer } : LRCPSession) = s := rfl

theorem retransmit_data_fields (s : LRCPSession) (now : ℚ) :
    (retransmit_data s now).1.session_id = s.session_id ∧
    (retransmit_data s now).1.bytes_received = s.bytes_received ∧
    (retransmit_data s now).1.rx_buffer = s.rx_buffer ∧
    (retransmit_data s now).1.tx_buffer = s.tx_buffer := by
  unfold retransmit_data
  split <;> simp

theorem process_application_data_spec (s : LRCPSession) (now : ℚ) :
    (process_application_data s now).1.session_id = s.session_id ∧
    (process_application_data s now).1.bytes_received = s.bytes_received ∧
    (process_application_data s now).1.rx_buffer
      = (process_lines s.rx_buffer.length s.rx_buffer s.tx_buffer).1 ∧
    (process_application_data s now).1.tx_buffer
      = (process_lines s.rx_buffer.length s.rx_buffer s.tx_buffer).2 := by
  by_cases h : (process_lines s.rx_buffer.length s.rx_buffer s.tx_buffer).2 = []
  · simp [process_application_data, h]
  · simp [process_application_data, h, retransmit_data_fields]

end LRCP


/-- C1: on a data packet dispatched to a session, if `pos` equals the current
`bytes_received` the (unescaped) payload is appended to `rx_buffer`,
`bytes_received` advances by exactly the payload length, the application
consumes `rx_buffer` (newline-splitting into `tx_buffer`), and the final
outbound packet is an ack of the new `bytes_received`; in every other case
the session is unchanged and the single reply is an ack of the current
`bytes_received`. -/
theorem C1_handle_data_packet (s : LRCP.LRCPSession) (pos : Int) (payload_str : List Nat) (now : ℚ) :
    (pos = (s.bytes_received : Int) →
      (LRCP.handle_data_packet s pos payload_str now).1.bytes_received
          = s.bytes_received + (LRCP.unescape_data payload_str).length ∧
      (LRCP.handle_data_packet s pos payload_str now).1.rx_buffer
          = (LRCP.process_lines (s.rx_buffer ++ LRCP.unescape_data payload_str).length
              (s.rx_buffer ++ LRCP.unescape_data payload_str) s.tx_buffer).1 ∧
      (LRCP.handle_data_packet s pos payload_str now).1.tx_buffer
          = (LRCP.process_lines (s.rx_buffer ++ LRCP.unescape_data payload_str).length
              (s.rx_buffer ++ LRCP.unescape_data payload_str) s.tx_buffer).2 ∧
      (LRCP.handle_data_packet s pos payload_str now).2.getLast?
          = some [LRCP.strAck, LRCP.intStr s.session_id,
                  LRCP.natStr (s.bytes_received + (LRCP.unescape_data payload_str).length)]) ∧
    (pos ≠ (s.bytes_received : Int) →
      (LRCP.handle_data_packet s pos payload_str now).1 = s ∧
      (LRCP.handle_data_packet s pos payload_str now).2
          = [[LRCP.strAck, LRCP.intStr s.session_id, LRCP.natStr s.bytes_received]]) := by
  constructor
  · intro h
    simp [LRCP.handle_data_packet, h, LRCP.send_ack_parts,
          LRCP.process_application_data_spec, List.getLast?_concat]
  · intro h
    simp [LRCP.handle_data_packet, h, LRCP.send_ack_parts]

/-- Witness for C1 at a concrete session: an in-order 2-byte packet advances
`bytes_received` to 2, and an out-of-order packet leaves the session
unchanged. -/
theorem C1_handle_data_packet_witness :
    (LRCP.handle_data_packet (LRCP.newSession 0 0 0) 0 [104, 10] 0).1.bytes_received = 2 ∧
    (LRCP.handle_data_packet (LRCP.newSession 0 0 0) 5 [104, 10] 0).1 = LRCP.newSession 0 0 0 := by
  constructor
  · simpa using
      ((C1_handle_data_packet (LRCP.newSession 0 0 0) 0 [104, 10] 0).1 (by decide)).1
  · exact ((C1_handle_data_packet (LRCP.newSession 0 0 0) 5 [104, 10] 0).2 (by decide)).1

/-- C8 counterexample: the payload `a\b` contains a backslash followed by
`b` (neither a backslash nor a slash).  The claim says the packet is dropped
with no advance of `bytes_received`; in fact `unescape_data` keeps the lone
backslash literally, the three bytes are appended to `rx_buffer`,
`bytes_received` advances to 3 and an ack of 3 is sent. -/
theorem C8_counterexample :
    LRCP.unescape_data [97, 92, 98] = [97, 92, 98] ∧
    (LRCP.handle_data_packet (LRCP.newSession 0 0 0) 0 [97, 92, 98] 0).1.bytes_received = 3 ∧
    (LRCP.handle_data_packet (LRCP.newSession 0 0 0) 0 [97, 92, 98] 0).1.rx_buffer = [97, 92, 98] ∧
    (LRCP.handle_data_packet (LRCP.newSession 0 0 0) 0 [97, 92, 98] 0).2
      = [[LRCP.strAck, LRCP.intStr 0, LRCP.natStr 3]] := by decide

/-- C8 amended: a backslash not followed by a backslash or slash is not a
protocol error; it is kept literally by the unescaper (which consumes one
character and continues), and an in-order data packet is never dropped — its
unescaped bytes are appended and `bytes_received` advances by their count. -/
theorem C8_lone_backslash (b : Nat) (rest : List Nat) (s : LRCP.LRCPSession)
    (payload_str : List Nat) (now : ℚ) :
    (b ≠ 92 → b ≠ 47 →
      LRCP.unescape_data (92 :: b :: rest) = 92 :: LRCP.unescape_data (b :: rest)) ∧
    (LRCP.handle_data_packet s ((s.bytes_received : Int)) payload_str now).1.bytes_received
        = s.bytes_received + (LRCP.unescape_data payload_str).length := by
  constructor
  · intro h92 h47
    rw [LRCP.unescape_data.eq_def]
    split <;> simp_all
  · simp [LRCP.handle_data_packet, LRCP.process_application_data_spec]

/-- Witness for C8 amended at the counterexample input. -/
theorem C8_lone_backslash_witness :
    LRCP.unescape_data [92, 98] = 92 :: LRCP.unescape_data [98] ∧
    (LRCP.handle_data_packet (LRCP.newSession 0 0 0) 0 [97, 92, 98] 0).1.bytes_received
      = 0 + (LRCP.unescape_data [97, 92, 98]).length := by
  exact ⟨(C8_lone_backslash 98 [] (LRCP.newSession 0 0 0) [97, 92, 98] 0).1
           (by decide) (by decide),
         (C8_lone_backslash 98 [] (LRCP.newSession 0 0 0) [97, 92, 98] 0).2⟩

/-- C6 counterexample: a session with `bytes_sent_acked = 5`, one pending
byte and a stale retransmit timestamp receives an ack of length 3 (strictly
below `bytes_sent_acked`) with the debounce long expired.  The claim says it
retransmits; the code has no branch for `length < bytes_sent_acked` and does
nothing at all. -/
theorem C6_counterexample :
    ((⟨0, 0, false, 0, 0, 0, 5, [97], []⟩ : LRCP.LRCPSession).tx_buffer ≠ [] ∧
     (3 : Int) ≤ ((⟨0, 0, false, 0, 0, 0, 5, [97], []⟩ : LRCP.LRCPSession).bytes_sent_acked : Int) ∧
     (10 : ℚ) - (⟨0, 0, false, 0, 0, 0, 5, [97], []⟩ : LRCP.LRCPSession).last_retransmit_time > 1/5) ∧
    LRCP.handle_ack_packet (⟨0, 0, false, 0, 0, 0, 5, [97], []⟩ : LRCP.LRCPSession) 3 10
      = ((⟨0, 0, false, 0, 0, 0, 5, [97], []⟩ : LRCP.LRCPSession), []) := by
  refine ⟨⟨by decide, by decide, by norm_num⟩, ?_⟩
  simp only [LRCP.handle_ack_packet]
  rw [if_neg (by decide), if_neg (by decide), if_neg (by decide)]

/-- C6 amended: the duplicate-ack fast retransmit fires only when the acked
length is exactly `bytes_sent_acked` (given pending bytes and an expired
~200 ms debounce); an ack with length strictly below `bytes_sent_acked` is
ignored entirely — no retransmission and no state change. -/
theorem C6_duplicate_ack (s : LRCP.LRCPSession) (len : Int) (now : ℚ) :
    ((len = (s.bytes_sent_acked : Int) ∧ s.tx_buffer ≠ [] ∧
        now - s.last_retransmit_time > 1/5) →
       LRCP.handle_ack_packet s len now = LRCP.retransmit_data s now) ∧
    (len < (s.bytes_sent_acked : Int) →
       LRCP.handle_ack_packet s len now = (s, [])) := by
  constructor
  · rintro ⟨h1, h2, h3⟩
    simp only [LRCP.handle_ack_packet]
    rw [if_neg (by omega), if_neg (by omega), if_pos h1, if_pos ⟨h2, h3⟩]
  · intro h
    simp only [LRCP.handle_ack_packet]
    rw [if_neg (by omega), if_neg (by omega), if_neg (by omega)]

/-- Witness for C6 amended: with `bytes_sent_acked = 0` and a pending byte,
an ack of exactly 0 past the debounce triggers the windowed retransmit,
while an ack of `-1` is ignored. -/
theorem C6_duplicate_ack_witness :
    LRCP.handle_ack_packet (⟨0, 0, false, 0, 0, 0, 0, [97], []⟩ : LRCP.LRCPSession) 0 10
      = LRCP.retransmit_data (⟨0, 0, false, 0, 0, 0, 0, [97], []⟩ : LRCP.LRCPSession) 10 ∧
    LRCP.handle_ack_packet (⟨0, 0, false, 0, 0, 0, 0, [97], []⟩ : LRCP.LRCPSession) (-1) 10
      = ((⟨0, 0, false, 0, 0, 0, 0, [97], []⟩ : LRCP.LRCPSession), []) := by
  exact ⟨(C6_duplicate_ack _ 0 10).1 (by refine ⟨by decide, by decide, by norm_num⟩),
         (C6_duplicate_ack _ (-1) 10).2 (by decide)⟩

/-- The notify loop finds a live waiter whenever one is in the set. -/
theorem notifyLoop_some_of_live (done : List Nat) (ws : List Nat)
    (h : ∃ w ∈ ws, w ∉ done) :
    ∃ w' rest, JobCentre.notifyLoop done ws = (some w', rest) ∧
      w' ∈ ws ∧ w' ∉ done := by
  induction ws with
  | nil => simp at h
  | cons w rest ih =>
    by_cases hw : w ∈ done
    · obtain ⟨v, hv, hvlive⟩ := h
      rcases List.mem_cons.mp hv with rfl | hvrest
      · exact absurd hw hvlive
      · obtain ⟨w', rest', hloop, hmem, hlive⟩ := ih ⟨v, hvrest, hvlive⟩
        refine ⟨w', rest', ?_, List.mem_cons_of_mem _ hmem, hlive⟩
        rw [JobCentre.notifyLoop, if_pos hw, hloop]
    · refine ⟨w, rest, ?_, List.mem_cons_self _ _, hw⟩
      rw [JobCentre.notifyLoop, if_neg hw]

/-- C3: a `put` that finds a live (not done) waiter registered on the target
queue hands the new job to some such waiter (a `set_result` handoff is
recorded for it) and never touches any queue heap. -/
theorem C3_put_bypasses_heap (st : JobCentre.Store) (pri : Int) (q : String)
    (payload : JobCentre.JVal) (ws : List Nat) (w : Nat)
    (hW : JobCentre.lookupW st.waiters q = some ws)
    (hmem : w ∈ ws) (hlive : w ∉ st.doneSet) :
    (JobCentre.put st pri q payload).1.queues = st.queues ∧
    ∃ w', w' ∈ ws ∧ w' ∉ st.doneSet ∧
      (w', (JobCentre.put st pri q payload).2) ∈ (JobCentre.put st pri q payload).1.handoffs := by
  obtain ⟨w', rest', hloop, hw'mem, hw'live⟩ :=
    notifyLoop_some_of_live st.doneSet ws ⟨w, hmem, hlive⟩
  simp only [JobCentre.put, JobCentre.notify_waiters, hW, hloop]
  refine ⟨trivial, w', hw'mem, hw'live, ?_⟩
  simp

/-- Witness for C3: with waiter 7 live on queue `q`, a put leaves the queue
map empty (no heap entry is created for the new job). -/
theorem C3_put_bypasses_heap_witness :
    (JobCentre.put { JobCentre.initStore with waiters := [("q", [7])] }
        5 "q" JobCentre.JVal.jnull).1.queues = [] := by
  exact (C3_put_bypasses_heap { JobCentre.initStore with waiters := [("q", [7])] }
    5 "q" JobCentre.JVal.jnull [7] 7 (by decide) (by decide) (by decide)).1

/-- C5 counterexample: session 1 is bound to address 0; a `connect/1/` from
address 5 is answered with an ack (sent to the bound address 0) instead of
being silently dropped, because `handle_packet` dispatches `connect` before
the peer-address check. -/
theorem C5_counterexample :
    LRCP.lookupSess [(1, LRCP.newSession 1 0 0)] 1 = some (LRCP.newSession 1 0 0) ∧
    (LRCP.newSession 1 0 0).addr ≠ 5 ∧
    (LRCP.handle_packet ⟨[(1, LRCP.newSession 1 0 0)]⟩
        [47, 99, 111, 110, 110, 101, 99, 116, 47, 49, 47] 5 1).2
      = [(0, [LRCP.strAck, LRCP.intStr 1, LRCP.natStr 0])] := by
  exact ⟨rfl, by decide, by decide⟩

/-- C5 amended: for `data`, `ack` and `close` packets referencing an existing
session from a peer address different from the session's bound address, the
server drops silently (no reply, no state change); a `connect` for an
existing session id is dispatched before the address check and is answered
with an ack of `bytes_received` sent to the session's bound address, with no
state change. -/
theorem C5_address_mismatch (srv : LRCP.LRCPServer) (raw : List Nat) (addr : Nat) (now : ℚ)
    (cmd : List Nat) (args : List (List Nat)) (sid : Int) (sess : LRCP.LRCPSession)
    (hsplit : LRCP.split_lrcp_message raw = some (cmd :: args))
    (harity : LRCP.cmdOk cmd (cmd :: args).length = true)
    (hsid : LRCP.pyInt (args.headD []) = some sid)
    (hlt : sid < LRCP.MAX_INT)
    (hlook : LRCP.lookupSess srv.sessions sid = some sess)
    (hne : sess.addr ≠ addr) :
    (cmd ≠ LRCP.strConnect → LRCP.handle_packet srv raw addr now = (srv, [])) ∧
    (cmd = LRCP.strConnect → raw.length ≤ LRCP.MAX_PACKET_SIZE →
      (raw.all fun c => decide (c < 128)) = true →
      LRCP.handle_packet srv raw addr now = (srv, [(sess.addr, LRCP.send_ack_parts sess)])) := by
  simp only [List.length_cons] at harity
  simp only [List.headD_eq_head?_getD] at hsid
  constructor
  · intro hcmd
    by_cases h1 : raw.length > LRCP.MAX_PACKET_SIZE
    · simp [LRCP.handle_packet, h1]
    · by_cases h2 : (raw.all fun c => decide (c < 128)) = true
      · simp [LRCP.handle_packet, h1, h2, hsplit, harity, hsid, hlook, hne, hcmd, hlt.not_le]
      · simp only [Bool.not_eq_true] at h2
        simp [LRCP.handle_packet, h1, h2]
  · intro hconn hlen hascii
    subst hconn
    simp [LRCP.handle_packet, not_lt.mpr hlen, hascii, hsplit, harity, hsid,
          hlt.not_le, LRCP.handle_connect, hlook]

/-- Witness for C5 amended: a `close/1/` from the wrong address 5 is silently
dropped, while a `connect/1/` from address 5 is answered with an ack to the
bound address 0. -/
theorem C5_address_mismatch_witness :
    LRCP.handle_packet ⟨[(1, LRCP.newSession 1 0 0)]⟩
        [47, 99, 108, 111, 115, 101, 47, 49, 47] 5 1
      = (⟨[(1, LRCP.newSession 1 0 0)]⟩, []) ∧
    LRCP.handle_packet ⟨[(1, LRCP.newSession 1 0 0)]⟩
        [47, 99, 111, 110, 110, 101, 99, 116, 47, 49, 47] 5 1
      = (⟨[(1, LRCP.newSession 1 0 0)]⟩,
         [((LRCP.newSession 1 0 0).addr, LRCP.send_ack_parts (LRCP.newSession 1 0 0))]) := by
  constructor
  · exact (C5_address_mismatch ⟨[(1, LRCP.newSession 1 0 0)]⟩
      [47, 99, 108, 111, 115, 101, 47, 49, 47] 5 1 LRCP.strClose [[49]] 1
      (LRCP.newSession 1 0 0) (by decide) (by decide) (by decide) (by decide)
      rfl (by decide)).1 (by decide)
  · exact (C5_address_mismatch ⟨[(1, LRCP.newSession 1 0 0)]⟩
      [47, 99, 111, 110, 110, 101, 99, 116, 47, 49, 47] 5 1 LRCP.strConnect [[49]] 1
      (LRCP.newSession 1 0 0) (by decide) (by decide) (by decide) (by decide)
      rfl (by decide)).2 rfl (by decide) (by decide)

/-- C4 counterexample: a `connect` datagram whose session id field is `-5`
carries a value that is not a non-negative decimal integer, yet `int()` parses `-5` and only
the upper bound is checked, so the packet is dispatched: a session with id
`-5` is created and an ack is sent. -/
theorem C4_counterexample :
    LRCP.pyInt [45, 53] = some (-5) ∧
    (LRCP.handle_packet ⟨[]⟩ [47, 99, 111, 110, 110, 101, 99, 116, 47, 45, 53, 47] 0 0).1.sessions
      = [(-5, LRCP.newSession (-5) 0 0)] ∧
    (LRCP.handle_packet ⟨[]⟩ [47, 99, 111, 110, 110, 101, 99, 116, 47, 45, 53, 47] 0 0).2
      = [(0, [LRCP.strAck, LRCP.intStr (-5), LRCP.natStr 0])] := by
  exact ⟨by decide, rfl, by decide⟩

/-- C4 amended: a numeric field is rejected exactly when it is not a decimal
integer in Python `int` syntax (an optional sign is accepted, so negative
values parse and are dispatched) or when its value is `≥ 2^31`.  A rejected
session id drops the packet with no state change and no reply.  A rejected
`pos`/`length` field of a `data`/`ack` packet that already reached an
existing session from its bound address also drops with no reply, but the
session's `last_activity` has already been refreshed. -/
theorem C4_numeric_fields (srv : LRCP.LRCPServer) (raw : List Nat) (addr : Nat) (now : ℚ)
    (cmd : List Nat) (args : List (List Nat))
    (hsplit : LRCP.split_lrcp_message raw = some (cmd :: args))
    (harity : LRCP.cmdOk cmd (cmd :: args).length = true) :
    ((LRCP.pyInt (args.headD []) = none ∨
        (∃ sid, LRCP.pyInt (args.headD []) = some sid ∧ LRCP.MAX_INT ≤ sid)) →
      LRCP.handle_packet srv raw addr now = (srv, [])) ∧
    (∀ sid sess, LRCP.pyInt (args.headD []) = some sid → sid < LRCP.MAX_INT →
      (cmd = LRCP.strData ∨ cmd = LRCP.strAck) →
      LRCP.lookupSess srv.sessions sid = some sess →
      sess.addr = addr →
      raw.length ≤ LRCP.MAX_PACKET_SIZE →
      (raw.all fun c => decide (c < 128)) = true →
      (LRCP.pyInt ((args.drop 1).headD []) = none ∨
        (∃ v, LRCP.pyInt ((args.drop 1).headD []) = some v ∧ LRCP.MAX_INT ≤ v)) →
      LRCP.handle_packet srv raw addr now
        = (⟨LRCP.setSess srv.sessions sid { sess with last_activity_time := now }⟩, [])) := by
  simp only [List.length_cons] at harity
  constructor
  · intro hbad
    by_cases h1 : raw.length > LRCP.MAX_PACKET_SIZE
    · simp [LRCP.handle_packet, h1]
    · by_cases h2 : (raw.all fun c => decide (c < 128)) = true
      · rcases hbad with hnone | ⟨sid, hsid, hge⟩
        · simp only [List.headD_eq_head?_getD] at hnone
          simp [LRCP.handle_packet, h1, h2, hsplit, harity, hnone]
        · simp only [List.headD_eq_head?_getD] at hsid
          simp [LRCP.handle_packet, h1, h2, hsplit, harity, hsid, hge]
      · simp only [Bool.not_eq_true] at h2
        simp [LRCP.handle_packet, h1, h2]
  · intro sid sess hsid hlt hcmd hlook haddr hlen hascii hbad2
    simp only [List.headD_eq_head?_getD] at hsid
    simp only [List.drop_one, List.headD_eq_head?_getD, List.head?_tail] at hbad2
    rcases hcmd with rfl | rfl
    · rcases hbad2 with hnone2 | ⟨v, hv, hge2⟩
      · simp [LRCP.handle_packet, not_lt.mpr hlen, hascii, hsplit, harity, hsid,
              hlt.not_le, hlook, haddr, hnone2,
              (by decide : LRCP.strData ≠ LRCP.strConnect)]
      · simp [LRCP.handle_packet, not_lt.mpr hlen, hascii, hsplit, harity, hsid,
              hlt.not_le, hlook, haddr, hv, hge2,
              (by decide : LRCP.strData ≠ LRCP.strConnect)]
    · rcases hbad2 with hnone2 | ⟨v, hv, hge2⟩
      · simp [LRCP.handle_packet, not_lt.mpr hlen, hascii, hsplit, harity, hsid,
              hlt.not_le, hlook, haddr, hnone2,
              (by decide : LRCP.strAck ≠ LRCP.strConnect),
              (by decide : LRCP.strAck ≠ LRCP.strData)]
      · simp [LRCP.handle_packet, not_lt.mpr hlen, hascii, hsplit, harity, hsid,
              hlt.not_le, hlook, haddr, hv, hge2,
              (by decide : LRCP.strAck ≠ LRCP.strConnect),
              (by decide : LRCP.strAck ≠ LRCP.strData)]

/-- Witness for C4 amended: a `connect` whose id field is the letter `x` is
dropped without reply or state change, and a `data` packet for live session 1
whose `pos` field is `2147483648` is dropped after the activity touch. -/
theorem C4_numeric_fields_witness :
    LRCP.handle_packet ⟨[]⟩ [47, 99, 111, 110, 110, 101, 99, 116, 47, 120, 47] 0 0
      = (⟨[]⟩, []) ∧
    LRCP.handle_packet ⟨[(1, LRCP.newSession 1 0 0)]⟩
        [47, 100, 97, 116, 97, 47, 49, 47,
         50, 49, 52, 55, 52, 56, 51, 54, 52, 56, 47, 120, 47] 0 7
      = (⟨LRCP.setSess [(1, LRCP.newSession 1 0 0)] 1
            { LRCP.newSession 1 0 0 with last_activity_time := 7 }⟩, []) := by
  constructor
  · exact (C4_numeric_fields ⟨[]⟩ [47, 99, 111, 110, 110, 101, 99, 116, 47, 120, 47]
      0 0 LRCP.strConnect [[120]] (by decide) (by decide)).1 (Or.inl (by decide))
  · exact (C4_numeric_fields ⟨[(1, LRCP.newSession 1 0 0)]⟩
      [47, 100, 97, 116, 97, 47, 49, 47, 50, 49, 52, 55, 52, 56, 51, 54, 52, 56, 47, 120, 47]
      0 7 LRCP.strData [[49], [50, 49, 52, 55, 52, 56, 51, 54, 52, 56], [120]]
      (by decide) (by decide)).2 1 (LRCP.newSession 1 0 0) (by decide) (by decide)
      (Or.inl rfl) rfl rfl (by decide) (by decide)
      (Or.inr ⟨2147483648, by decide, by decide⟩)

/-- Dispatch of a parsed object whose `request` field is `"put"`. -/
theorem handle_line_put (jc : JobCentre.JC) (client : Nat)
    (fields : List (String × JobCentre.JVal))
    (hreq : JobCentre.lookupField fields "request" = some (JobCentre.JVal.jstr "put")) :
    JobCentre.handle_line jc client (JobCentre.LineInput.val (JobCentre.JVal.jobj fields))
      = JobCentre.handle_put jc fields := by
  simp only [JobCentre.handle_line]
  rw [hreq]
  rfl

/-- Dispatch of a parsed object whose `request` field is `"get"`. -/
theorem handle_line_get (jc : JobCentre.JC) (client : Nat)
    (fields : List (String × JobCentre.JVal))
    (hreq : JobCentre.lookupField fields "request" = some (JobCentre.JVal.jstr "get")) :
    JobCentre.handle_line jc client (JobCentre.LineInput.val (JobCentre.JVal.jobj fields))
      = JobCentre.handle_get jc client fields := by
  simp only [JobCentre.handle_line]
  rw [hreq]
  rfl

/-- Dispatch of a parsed object whose `request` field is `"delete"`. -/
theorem handle_line_delete (jc : JobCentre.JC) (client : Nat)
    (fields : List (String × JobCentre.JVal))
    (hreq : JobCentre.lookupField fields "request" = some (JobCentre.JVal.jstr "delete")) :
    JobCentre.handle_line jc client (JobCentre.LineInput.val (JobCentre.JVal.jobj fields))
      = JobCentre.handle_delete jc fields := by
  simp only [JobCentre.handle_line]
  rw [hreq]
  rfl

/-- Dispatch of a parsed object whose `request` field is `"abort"`. -/
theorem handle_line_abort (jc : JobCentre.JC) (client : Nat)
    (fields : List (String × JobCentre.JVal))
    (hreq : JobCentre.lookupField fields "request" = some (JobCentre.JVal.jstr "abort")) :
    JobCentre.handle_line jc client (JobCentre.LineInput.val (JobCentre.JVal.jobj fields))
      = JobCentre.handle_abort jc client fields := by
  simp only [JobCentre.handle_line]
  rw [hreq]
  rfl

/-- A put with any required field missing replies with the put error. -/
theorem handle_put_missing (jc : JobCentre.JC) (fields : List (String × JobCentre.JVal))
    (h : JobCentre.lookupField fields "queue" = none ∨
         JobCentre.lookupField fields "job" = none ∨
         JobCentre.lookupField fields "pri" = none) :
    JobCentre.handle_put jc fields
      = JobCentre.StepResult.reply (JobCentre.errResp "Invalid arguments for 'put'") jc := by
  rcases hq : JobCentre.lookupField fields "queue" with _ | qv <;>
  rcases hj : JobCentre.lookupField fields "job" with _ | pj <;>
  rcases hp : JobCentre.lookupField fields "pri" with _ | pv <;>
    simp_all [JobCentre.handle_put]

/-- A put whose `queue` field is not a string replies with the put error. -/
theorem handle_put_badqueue (jc : JobCentre.JC) (fields : List (String × JobCentre.JVal))
    (qv pj pv : JobCentre.JVal)
    (hq : JobCentre.lookupField fields "queue" = some qv)
    (hj : JobCentre.lookupField fields "job" = some pj)
    (hp : JobCentre.lookupField fields "pri" = some pv)
    (hbad : ∀ s, qv ≠ JobCentre.JVal.jstr s) :
    JobCentre.handle_put jc fields
      = JobCentre.StepResult.reply (JobCentre.errResp "Invalid arguments for 'put'") jc := by
  cases qv with
  | jstr s => exact absurd rfl (hbad s)
  | jnull => simp [JobCentre.handle_put, hq, hj, hp]
  | jbool b => simp [JobCentre.handle_put, hq, hj, hp]
  | jint n => simp [JobCentre.handle_put, hq, hj, hp]
  | jarr xs => simp [JobCentre.handle_put, hq, hj, hp]
  | jobj fs => simp [JobCentre.handle_put, hq, hj, hp]

/-- A put whose `pri` field fails `isinstance(pri, int)` or is negative
replies with the put error. -/
theorem handle_put_badpri (jc : JobCentre.JC) (fields : List (String × JobCentre.JVal))
    (qs : String) (pj pv : JobCentre.JVal)
    (hq : JobCentre.lookupField fields "queue" = some (JobCentre.JVal.jstr qs))
    (hj : JobCentre.lookupField fields "job" = some pj)
    (hp : JobCentre.lookupField fields "pri" = some pv)
    (hbad : JobCentre.pyIsInt pv = false ∨ JobCentre.pyIntVal pv < 0) :
    JobCentre.handle_put jc fields
      = JobCentre.StepResult.reply (JobCentre.errResp "Invalid arguments for 'put'") jc := by
  rcases hbad with h | h
  · simp [JobCentre.handle_put, hq, hj, hp, h]
  · simp [JobCentre.handle_put, hq, hj, hp, not_le.mpr h]

/-- A boolean `pri` passes the `isinstance(pri, int)` check (Python booleans
are ints) and the put succeeds with the boolean's integer value. -/
theorem handle_put_bool_pri (jc : JobCentre.JC) (fields : List (String × JobCentre.JVal))
    (qs : String) (pj : JobCentre.JVal) (b : Bool)
    (hq : JobCentre.lookupField fields "queue" = some (JobCentre.JVal.jstr qs))
    (hj : JobCentre.lookupField fields "job" = some pj)
    (hp : JobCentre.lookupField fields "pri" = some (JobCentre.JVal.jbool b)) :
    JobCentre.handle_put jc fields
      = JobCentre.StepResult.reply
          (JobCentre.okPutResp (JobCentre.put jc.st (JobCentre.pyIntVal (JobCentre.JVal.jbool b)) qs pj).2)
          { jc with st := (JobCentre.put jc.st (JobCentre.pyIntVal (JobCentre.JVal.jbool b)) qs pj).1 } := by
  cases b <;> simp [JobCentre.handle_put, hq, hj, hp, JobCentre.pyIsInt, JobCentre.pyIntVal]

/-- A get without a `queues` field replies with the get error. -/
theorem handle_get_missing (jc : JobCentre.JC) (client : Nat)
    (fields : List (String × JobCentre.JVal))
    (h : JobCentre.lookupField fields "queues" = none) :
    JobCentre.handle_get jc client fields
      = JobCentre.StepResult.reply (JobCentre.errResp "Invalid arguments for 'get'") jc := by
  simp [JobCentre.handle_get, h]

/-- A get whose `queues` field is not an array replies with the get error. -/
theorem handle_get_notarray (jc : JobCentre.JC) (client : Nat)
    (fields : List (String × JobCentre.JVal)) (qv : JobCentre.JVal)
    (hq : JobCentre.lookupField fields "queues" = some qv)
    (hbad : ∀ xs, qv ≠ JobCentre.JVal.jarr xs) :
    JobCentre.handle_get jc client fields
      = JobCentre.StepResult.reply (JobCentre.errResp "Invalid arguments for 'get'") jc := by
  cases qv with
  | jarr xs => exact absurd rfl (hbad xs)
  | jnull => simp [JobCentre.handle_get, hq]
  | jbool b => simp [JobCentre.handle_get, hq]
  | jint n => simp [JobCentre.handle_get, hq]
  | jstr s => simp [JobCentre.handle_get, hq]
  | jobj fs => simp [JobCentre.handle_get, hq]

/-- A get whose `queues` array has a non-string element replies with the get
error. -/
theorem handle_get_badelems (jc : JobCentre.JC) (client : Nat)
    (fields : List (String × JobCentre.JVal)) (xs : List JobCentre.JVal)
    (hq : JobCentre.lookupField fields "queues" = some (JobCentre.JVal.jarr xs))
    (hbad : JobCentre.allStrings xs = false) :
    JobCentre.handle_get jc client fields
      = JobCentre.StepResult.reply (JobCentre.errResp "Invalid arguments for 'get'") jc := by
  simp [JobCentre.handle_get, hq, hbad]

/-- A delete without an integer `id` replies with the delete error. -/
theorem handle_delete_badid (jc : JobCentre.JC) (fields : List (String × JobCentre.JVal))
    (h : JobCentre.lookupField fields "id" = none ∨
         ∃ v, JobCentre.lookupField fields "id" = some v ∧ JobCentre.pyIsInt v = false) :
    JobCentre.handle_delete jc fields
      = JobCentre.StepResult.reply (JobCentre.errResp "Invalid arguments for 'delete'") jc := by
  rcases h with h | ⟨v, hv, hbad⟩
  · simp [JobCentre.handle_delete, h]
  · simp [JobCentre.handle_delete, hv, hbad]

/-- An abort without an integer `id` replies with the abort error. -/
theorem handle_abort_badid (jc : JobCentre.JC) (client : Nat)
    (fields : List (String × JobCentre.JVal))
    (h : JobCentre.lookupField fields "id" = none ∨
         ∃ v, JobCentre.lookupField fields "id" = some v ∧ JobCentre.pyIsInt v = false) :
    JobCentre.handle_abort jc client fields
      = JobCentre.StepResult.reply (JobCentre.errResp "Invalid arguments for 'abort'") jc := by
  rcases h with h | ⟨v, hv, hbad⟩
  · simp [JobCentre.handle_abort, h]
  · simp [JobCentre.handle_abort, hv, hbad]

/-- C9 counterexample: the request line `1` is valid JSON but not an object.
The claim says every structurally invalid line gets a `status:"error"` reply
with the connection kept open; in fact `req_obj.get('request')` raises
`AttributeError`, the read loop's catch-all breaks, and the connection is
closed without any response (`StepResult.crash`). -/
theorem C9_counterexample :
    JobCentre.handle_line JobCentre.initJC 0
        (JobCentre.LineInput.val (JobCentre.JVal.jint 1))
      = JobCentre.StepResult.crash JobCentre.initJC := rfl

/-- C9 amended: a request line that is invalid JSON, or parses to a JSON
object that is structurally or type-invalid (missing or unknown `request`
name; put with a missing field, a non-string `queue`, or a `pri` that is
neither a non-negative integer nor a boolean; get with a missing `queues`,
a non-array `queues`, or a non-string element; delete/abort with a missing
or non-integer `id`) is answered by a single `status:"error"` object with
the store unchanged and the connection kept open.  A boolean `pri` is
accepted as its integer value (Python booleans are ints), and a valid-JSON
line that is not an object raises and closes the connection with no
response and no store change. -/
theorem C9_invalid_request_handling (jc : JobCentre.JC) (client : Nat)
    (fields : List (String × JobCentre.JVal)) :
    (JobCentre.handle_line jc client JobCentre.LineInput.badJson
      = JobCentre.StepResult.reply (JobCentre.errResp "Invalid JSON") jc) ∧
    (JobCentre.lookupField fields "request" = none →
      JobCentre.handle_line jc client (JobCentre.LineInput.val (JobCentre.JVal.jobj fields))
        = JobCentre.StepResult.reply (JobCentre.errResp "Unknown request type") jc) ∧
    (∀ r : String, JobCentre.lookupField fields "request" = some (JobCentre.JVal.jstr r) →
      r ≠ "put" → r ≠ "get" → r ≠ "delete" → r ≠ "abort" →
      JobCentre.handle_line jc client (JobCentre.LineInput.val (JobCentre.JVal.jobj fields))
        = JobCentre.StepResult.reply (JobCentre.errResp "Unknown request type") jc) ∧
    (JobCentre.lookupField fields "request" = some (JobCentre.JVal.jstr "put") →
      ((JobCentre.lookupField fields "queue" = none ∨
        JobCentre.lookupField fields "job" = none ∨
        JobCentre.lookupField fields "pri" = none) →
        JobCentre.handle_line jc client (JobCentre.LineInput.val (JobCentre.JVal.jobj fields))
          = JobCentre.StepResult.reply (JobCentre.errResp "Invalid arguments for 'put'") jc) ∧
      (∀ qv pj pv, JobCentre.lookupField fields "queue" = some qv →
        JobCentre.lookupField fields "job" = some pj →
        JobCentre.lookupField fields "pri" = some pv →
        (∀ s, qv ≠ JobCentre.JVal.jstr s) →
        JobCentre.handle_line jc client (JobCentre.LineInput.val (JobCentre.JVal.jobj fields))
          = JobCentre.StepResult.reply (JobCentre.errResp "Invalid arguments for 'put'") jc) ∧
      (∀ qs pj pv, JobCentre.lookupField fields "queue" = some (JobCentre.JVal.jstr qs) →
        JobCentre.lookupField fields "job" = some pj →
        JobCentre.lookupField fields "pri" = some pv →
        (JobCentre.pyIsInt pv = false ∨ JobCentre.pyIntVal pv < 0) →
        JobCentre.handle_line jc client (JobCentre.LineInput.val (JobCentre.JVal.jobj fields))
          = JobCentre.StepResult.reply (JobCentre.errResp "Invalid arguments for 'put'") jc) ∧
      (∀ qs pj b, JobCentre.lookupField fields "queue" = some (JobCentre.JVal.jstr qs) →
        JobCentre.lookupField fields "job" = some pj →
        JobCentre.lookupField fields "pri" = some (JobCentre.JVal.jbool b) →
        JobCentre.handle_line jc client (JobCentre.LineInput.val (JobCentre.JVal.jobj fields))
          = JobCentre.StepResult.reply
              (JobCentre.okPutResp (JobCentre.put jc.st (JobCentre.pyIntVal (JobCentre.JVal.jbool b)) qs pj).2)
              { jc with st := (JobCentre.put jc.st (JobCentre.pyIntVal (JobCentre.JVal.jbool b)) qs pj).1 })) ∧
    (JobCentre.lookupField fields "request" = some (JobCentre.JVal.jstr "get") →
      ((JobCentre.lookupField fields "queues" = none →
        JobCentre.handle_line jc client (JobCentre.LineInput.val (JobCentre.JVal.jobj fields))
          = JobCentre.StepResult.reply (JobCentre.errResp "Invalid arguments for 'get'") jc) ∧
      (∀ qv, JobCentre.lookupField fields "queues" = some qv →
        (∀ xs, qv ≠ JobCentre.JVal.jarr xs) →
        JobCentre.handle_line jc client (JobCentre.LineInput.val (JobCentre.JVal.jobj fields))
          = JobCentre.StepResult.reply (JobCentre.errResp "Invalid arguments for 'get'") jc) ∧
      (∀ xs, JobCentre.lookupField fields "queues" = some (JobCentre.JVal.jarr xs) →
        JobCentre.allStrings xs = false →
        JobCentre.handle_line jc client (JobCentre.LineInput.val (JobCentre.JVal.jobj fields))
          = JobCentre.StepResult.reply (JobCentre.errResp "Invalid arguments for 'get'") jc))) ∧
    (JobCentre.lookupField fields "request" = some (JobCentre.JVal.jstr "delete") →
      (JobCentre.lookupField fields "id" = none ∨
        ∃ v, JobCentre.lookupField fields "id" = some v ∧ JobCentre.pyIsInt v = false) →
      JobCentre.handle_line jc client (JobCentre.LineInput.val (JobCentre.JVal.jobj fields))
        = JobCentre.StepResult.reply (JobCentre.errResp "Invalid arguments for 'delete'") jc) ∧
    (JobCentre.lookupField fields "request" = some (JobCentre.JVal.jstr "abort") →
      (JobCentre.lookupField fields "id" = none ∨
        ∃ v, JobCentre.lookupField fields "id" = some v ∧ JobCentre.pyIsInt v = false) →
      JobCentre.handle_line jc client (JobCentre.LineInput.val (JobCentre.JVal.jobj fields))
        = JobCentre.StepResult.reply (JobCentre.errResp "Invalid arguments for 'abort'") jc) ∧
    (∀ v : JobCentre.JVal, (∀ fs, v ≠ JobCentre.JVal.jobj fs) →
      JobCentre.handle_line jc client (JobCentre.LineInput.val v)
        = JobCentre.StepResult.crash jc) := by
  refine ⟨rfl, ?_, ?_, ?_, ?_, ?_, ?_, ?_⟩
  · intro h
    simp only [JobCentre.handle_line]
    rw [h]
  · intro r hreq h1 h2 h3 h4
    simp only [JobCentre.handle_line]
    rw [hreq]
    split <;> simp_all
  · intro hreq
    refine ⟨?_, ?_, ?_, ?_⟩
    · intro h
      rw [handle_line_put jc client fields hreq]
      exact handle_put_missing jc fields h
    · intro qv pj pv hq hj hp hbad
      rw [handle_line_put jc client fields hreq]
      exact handle_put_badqueue jc fields qv pj pv hq hj hp hbad
    · intro qs pj pv hq hj hp hbad
      rw [handle_line_put jc client fields hreq]
      exact handle_put_badpri jc fields qs pj pv hq hj hp hbad
    · intro qs pj b hq hj hp
      rw [handle_line_put jc client fields hreq]
      exact handle_put_bool_pri jc fields qs pj b hq hj hp
  · intro hreq
    refine ⟨?_, ?_, ?_⟩
    · intro h
      rw [handle_line_get jc client fields hreq]
      exact handle_get_missing jc client fields h
    · intro qv hq hbad
      rw [handle_line_get jc client fields hreq]
      exact handle_get_notarray jc client fields qv hq hbad
    · intro xs hq hbad
      rw [handle_line_get jc client fields hreq]
      exact handle_get_badelems jc client fields xs hq hbad
  · intro hreq h
    rw [handle_line_delete jc client fields hreq]
    exact handle_delete_badid jc fields h
  · intro hreq h
    rw [handle_line_abort jc client fields hreq]
    exact handle_abort_badid jc client fields h
  · intro v h
    cases v with
    | jobj fs => exact absurd rfl (h fs)
    | jnull => rfl
    | jbool b => rfl
    | jint n => rfl
    | jstr s => rfl
    | jarr xs => rfl

/-- Witness for C9 amended at concrete inputs: a missing `request` field and
a bad-JSON line each produce an error reply with the state unchanged. -/
theorem C9_invalid_request_handling_witness :
    JobCentre.handle_line JobCentre.initJC 0 JobCentre.LineInput.badJson
      = JobCentre.StepResult.reply (JobCentre.errResp "Invalid JSON") JobCentre.initJC ∧
    JobCentre.handle_line JobCentre.initJC 0
        (JobCentre.LineInput.val (JobCentre.JVal.jobj [("request", JobCentre.JVal.jstr "zap")]))
      = JobCentre.StepResult.reply (JobCentre.errResp "Unknown request type") JobCentre.initJC ∧
    JobCentre.handle_line JobCentre.initJC 0
        (JobCentre.LineInput.val (JobCentre.JVal.jobj
          [("request", JobCentre.JVal.jstr "put"), ("queue", JobCentre.JVal.jint 3),
           ("job", JobCentre.JVal.jnull), ("pri", JobCentre.JVal.jint 1)]))
      = JobCentre.StepResult.reply (JobCentre.errResp "Invalid arguments for 'put'")
          JobCentre.initJC := by
  refine ⟨(C9_invalid_request_handling JobCentre.initJC 0 []).1, ?_, ?_⟩
  · exact (C9_invalid_request_handling JobCentre.initJC 0
      [("request", JobCentre.JVal.jstr "zap")]).2.2.1 "zap" rfl
      (by decide) (by decide) (by decide) (by decide)
  · exact ((C9_invalid_request_handling JobCentre.initJC 0
      [("request", JobCentre.JVal.jstr "put"), ("queue", JobCentre.JVal.jint 3),
       ("job", JobCentre.JVal.jnull), ("pri", JobCentre.JVal.jint 1)]).2.2.2.1 rfl).2.1
      (JobCentre.JVal.jint 3) JobCentre.JVal.jnull (JobCentre.JVal.jint 1)
      rfl rfl rfl (fun s => by simp)

/-- Lookup after a queue-map write. -/
theorem lookupQ_setQ (l : List (String × List JobCentre.HeapEntry)) (q : String)
    (v : List JobCentre.HeapEntry) (r : String) :
    JobCentre.lookupQ (JobCentre.setQ l q v) r = if r = q then some v else JobCentre.lookupQ l r := by
  induction l with
  | nil =>
    simp only [JobCentre.setQ, JobCentre.lookupQ]
    by_cases h : r = q
    · simp [h]
    · have hqr : ¬ q = r := fun hqr => h hqr.symm
      simp [h, hqr]
  | cons kv rest ih =>
    obtain ⟨k, pq⟩ := kv
    simp only [JobCentre.setQ]
    by_cases hk : k = q
    · subst hk
      by_cases h : r = k
      · simp [JobCentre.lookupQ, h]
      · have hkr : ¬ k = r := fun hkr => h hkr.symm
        simp [JobCentre.lookupQ, h, hkr]
    · rw [if_neg hk]
      by_cases h : k = r
      · subst h
        have hne : ¬ k = q := hk
        simp [JobCentre.lookupQ, fun hrq : k = q => hk hrq]
      · simp only [JobCentre.lookupQ, if_neg h]
        exact ih

/-- The head surviving a `dropWhile` fails the predicate. -/
theorem head_dropWhile_false {α : Type} (p : α → Bool) (l : List α) (x : α)
    (h : (l.dropWhile p).head? = some x) : p x = false := by
  induction l with
  | nil => simp [List.dropWhile] at h
  | cons a rest ih =>
    rw [List.dropWhile_cons] at h
    by_cases hp : p a
    · rw [if_pos hp] at h
      exact ih h
    · rw [if_neg hp] at h
      simp only [List.head?_cons, Option.some.injEq] at h
      subst h
      simpa using hp

/-- Cleaned tops only depend on the store through `objs` and `queues`, and
`bestFold` only reads cleaned tops. -/
theorem bestFold_congr (a b : JobCentre.Store)
    (h : ∀ q, JobCentre.cleanedTop a q = JobCentre.cleanedTop b q) :
    ∀ (names : List String) (acc : Option Int × Option String),
      JobCentre.bestFold a names acc = JobCentre.bestFold b names acc := by
  intro names
  induction names with
  | nil => intro acc; rfl
  | cons q rest ih =>
    intro acc
    obtain ⟨bp, bq⟩ := acc
    simp only [JobCentre.bestFold, h q]
    cases JobCentre.cleanedTop b q with
    | none => exact ih (bp, bq)
    | some e =>
      by_cases hg : JobCentre.gtOpt (-e.negPri) bp = true
      · simp only [hg, if_true]
        exact ih (some (-e.negPri), some q)
      · simp only [Bool.not_eq_true] at hg
        simp only [hg, Bool.false_eq_true, if_false]
        exact ih (bp, bq)

/-- Full characterisation of the scanning loop of `get_nowait`: it cleans
the top of every scanned queue (and nothing else), changes no other store
component, and computes exactly the first-strict-maximum accumulator
described by `bestFold`. -/
theorem scan_spec (names : List String) :
    ∀ (st : JobCentre.Store) (bp : Option Int) (bq : Option String),
    ((JobCentre.scan st names bp bq).1.objs = st.objs ∧
     (JobCentre.scan st names bp bq).1.jobsDict = st.jobsDict ∧
     (JobCentre.scan st names bp bq).1.waiters = st.waiters ∧
     (JobCentre.scan st names bp bq).1.doneSet = st.doneSet ∧
     (JobCentre.scan st names bp bq).1.handoffs = st.handoffs ∧
     (JobCentre.scan st names bp bq).1.id_counter = st.id_counter ∧
     (JobCentre.scan st names bp bq).1.tie_breaker = st.tie_breaker) ∧
    (∀ r, JobCentre.lookupQ (JobCentre.scan st names bp bq).1.queues r
        = if r ∈ names then (JobCentre.lookupQ st.queues r).map (JobCentre.dropStale st.objs)
          else JobCentre.lookupQ st.queues r) ∧
    (JobCentre.scan st names bp bq).2 = JobCentre.bestFold st names (bp, bq) := by
  induction names with
  | nil =>
    intro st bp bq
    refine ⟨⟨rfl, rfl, rfl, rfl, rfl, rfl, rfl⟩, ?_, rfl⟩
    intro r
    simp [JobCentre.scan]
  | cons q rest ih =>
    intro st bp bq
    rcases hq : JobCentre.lookupQ st.queues q with _ | pq
    · have hscan : JobCentre.scan st (q :: rest) bp bq = JobCentre.scan st rest bp bq := by
        simp only [JobCentre.scan]
        rw [hq]
      have hct : JobCentre.cleanedTop st q = none := by
        simp [JobCentre.cleanedTop, hq, JobCentre.dropStale]
      obtain ⟨hf, hqs, hbf⟩ := ih st bp bq
      rw [hscan]
      refine ⟨hf, ?_, ?_⟩
      · intro r
        rw [hqs r]
        by_cases hr : r = q
        · subst hr
          simp [hq]
        · simp [List.mem_cons, hr]
      · rw [hbf]
        conv_rhs => rw [JobCentre.bestFold]
        rw [hct]
    · by_cases he : pq.isEmpty
      · have hpq : pq = [] := List.isEmpty_iff.mp he
        subst hpq
        have hscan : JobCentre.scan st (q :: rest) bp bq = JobCentre.scan st rest bp bq := by
          simp only [JobCentre.scan]
          rw [hq]
          simp
        have hct : JobCentre.cleanedTop st q = none := by
          simp [JobCentre.cleanedTop, hq, JobCentre.dropStale]
        obtain ⟨hf, hqs, hbf⟩ := ih st bp bq
        rw [hscan]
        refine ⟨hf, ?_, ?_⟩
        · intro r
          rw [hqs r]
          by_cases hr : r = q
          · subst hr
            simp [hq, JobCentre.dropStale]
          · simp [List.mem_cons, hr]
        · rw [hbf]
          conv_rhs => rw [JobCentre.bestFold]
          rw [hct]
      · -- the scanned queue exists and is non-empty: its top is cleaned in place
        have hidem : JobCentre.dropStale st.objs (JobCentre.dropStale st.objs pq)
            = JobCentre.dropStale st.objs pq := by
          simp [JobCentre.dropStale, List.dropWhile_idempotent]
        have hct : JobCentre.cleanedTop st q = (JobCentre.dropStale st.objs pq).head? := by
          simp [JobCentre.cleanedTop, hq]
        have hlook : ∀ r, JobCentre.lookupQ
            (JobCentre.setQ st.queues q (JobCentre.dropStale st.objs pq)) r
            = if r = q then some (JobCentre.dropStale st.objs pq)
              else JobCentre.lookupQ st.queues r :=
          fun r => lookupQ_setQ st.queues q (JobCentre.dropStale st.objs pq) r
        have hctall : ∀ r, JobCentre.cleanedTop
            { st with queues := JobCentre.setQ st.queues q (JobCentre.dropStale st.objs pq) } r
            = JobCentre.cleanedTop st r := by
          intro r
          by_cases hr : r = q
          · subst hr
            simp only [JobCentre.cleanedTop, hlook r, if_pos rfl, hq]
            simp [hidem]
          · simp [JobCentre.cleanedTop, hlook r, hr]
        have step : ∀ (bp2 : Option Int) (bq2 : Option String),
            ((JobCentre.scan { st with queues := JobCentre.setQ st.queues q (JobCentre.dropStale st.objs pq) } rest bp2 bq2).1.objs = st.objs ∧
             (JobCentre.scan { st with queues := JobCentre.setQ st.queues q (JobCentre.dropStale st.objs pq) } rest bp2 bq2).1.jobsDict = st.jobsDict ∧
             (JobCentre.scan { st with queues := JobCentre.setQ st.queues q (JobCentre.dropStale st.objs pq) } rest bp2 bq2).1.waiters = st.waiters ∧
             (JobCentre.scan { st with queues := JobCentre.setQ st.queues q (JobCentre.dropStale st.objs pq) } rest bp2 bq2).1.doneSet = st.doneSet ∧
             (JobCentre.scan { st with queues := JobCentre.setQ st.queues q (JobCentre.dropStale st.objs pq) } rest bp2 bq2).1.handoffs = st.handoffs ∧
             (JobCentre.scan { st with queues := JobCentre.setQ st.queues q (JobCentre.dropStale st.objs pq) } rest bp2 bq2).1.id_counter = st.id_counter ∧
             (JobCentre.scan { st with queues := JobCentre.setQ st.queues q (JobCentre.dropStale st.objs pq) } rest bp2 bq2).1.tie_breaker = st.tie_breaker) ∧
            (∀ r, JobCentre.lookupQ (JobCentre.scan { st with queues := JobCentre.setQ st.queues q (JobCentre.dropStale st.objs pq) } rest bp2 bq2).1.queues r
                = if r ∈ q :: rest then (JobCentre.lookupQ st.queues r).map (JobCentre.dropStale st.objs)
                  else JobCentre.lookupQ st.queues r) ∧
            (JobCentre.scan { st with queues := JobCentre.setQ st.queues q (JobCentre.dropStale st.objs pq) } rest bp2 bq2).2
              = JobCentre.bestFold st rest (bp2, bq2) := by
          intro bp2 bq2
          obtain ⟨hf, hqs, hbf⟩ :=
            ih { st with queues := JobCentre.setQ st.queues q (JobCentre.dropStale st.objs pq) } bp2 bq2
          refine ⟨hf, ?_, ?_⟩
          · intro r
            rw [hqs r]
            by_cases hr : r = q
            · subst hr
              by_cases hmem : r ∈ rest
              · simp [hmem, hlook r, hq, hidem]
              · simp [hmem, hlook r, hq]
            · by_cases hmem : r ∈ rest
              · simp [hmem, hlook r, hr, List.mem_cons]
              · simp [hmem, hlook r, hr, List.mem_cons]
          · rw [hbf]
            exact bestFold_congr _ st hctall rest (bp2, bq2)
        rcases hd : JobCentre.dropStale st.objs pq with _ | ⟨e, t⟩
        · have hscan : JobCentre.scan st (q :: rest) bp bq
              = JobCentre.scan { st with queues := JobCentre.setQ st.queues q (JobCentre.dropStale st.objs pq) } rest bp bq := by
            conv_lhs => rw [JobCentre.scan]
            rw [hq]
            simp only [he, Bool.false_eq_true, if_false]
            rw [hd]
          obtain ⟨hf, hqs, hbf⟩ := step bp bq
          rw [hscan]
          refine ⟨hf, hqs, ?_⟩
          rw [hbf]
          conv_rhs => rw [JobCentre.bestFold]
          rw [hct, hd]
          rfl
        · by_cases hg : JobCentre.gtOpt (-e.negPri) bp = true
          · have hscan : JobCentre.scan st (q :: rest) bp bq
                = JobCentre.scan { st with queues := JobCentre.setQ st.queues q (JobCentre.dropStale st.objs pq) } rest (some (-e.negPri)) (some q) := by
              conv_lhs => rw [JobCentre.scan]
              rw [hq]
              simp only [he, Bool.false_eq_true, if_false]
              rw [hd]
              simp [hg]
            obtain ⟨hf, hqs, hbf⟩ := step (some (-e.negPri)) (some q)
            rw [hscan]
            refine ⟨hf, hqs, ?_⟩
            rw [hbf]
            conv_rhs => rw [JobCentre.bestFold]
            rw [hct, hd]
            simp [hg]
          · have hscan : JobCentre.scan st (q :: rest) bp bq
                = JobCentre.scan { st with queues := JobCentre.setQ st.queues q (JobCentre.dropStale st.objs pq) } rest bp bq := by
              conv_lhs => rw [JobCentre.scan]
              rw [hq]
              simp only [he, Bool.false_eq_true, if_false]
              rw [hd]
              simp [hg]
            obtain ⟨hf, hqs, hbf⟩ := step bp bq
            rw [hscan]
            refine ⟨hf, hqs, ?_⟩
            rw [hbf]
            conv_rhs => rw [JobCentre.bestFold]
            rw [hct, hd]
            simp [hg]

theorem gtOpt_none_eq (c : Int) : JobCentre.gtOpt c none = true := rfl

theorem gtOpt_some_iff (c b : Int) : JobCentre.gtOpt c (some b) = true ↔ b < c := by
  simp [JobCentre.gtOpt]

theorem gtOpt_some_false_iff (c b : Int) : JobCentre.gtOpt c (some b) = false ↔ c ≤ b := by
  simp [JobCentre.gtOpt]

/-- The best-queue component produced by the scan either is the incoming
accumulator or names one of the scanned queues. -/
theorem bestFold_bq_mem (st : JobCentre.Store) :
    ∀ (names : List String) (bp : Option Int) (bq : Option String),
      (JobCentre.bestFold st names (bp, bq)).2 = bq ∨
      ∃ q ∈ names, (JobCentre.bestFold st names (bp, bq)).2 = some q := by
  intro names
  induction names with
  | nil => intro bp bq; exact Or.inl rfl
  | cons q0 rest ih =>
    intro bp bq
    rw [JobCentre.bestFold]
    cases hct : JobCentre.cleanedTop st q0 with
    | none =>
      rcases ih bp bq with h | ⟨q, hq, h⟩
      · exact Or.inl h
      · exact Or.inr ⟨q, List.mem_cons_of_mem _ hq, h⟩
    | some e =>
      by_cases hg : JobCentre.gtOpt (-e.negPri) bp = true
      · simp only [hg, if_true]
        rcases ih (some (-e.negPri)) (some q0) with h | ⟨q, hq, h⟩
        · exact Or.inr ⟨q0, List.mem_cons_self _ _, h⟩
        · exact Or.inr ⟨q, List.mem_cons_of_mem _ hq, h⟩
      · simp only [Bool.not_eq_true] at hg
        simp only [hg, Bool.false_eq_true, if_false]
        rcases ih bp bq with h | ⟨q, hq, h⟩
        · exact Or.inl h
        · exact Or.inr ⟨q, List.mem_cons_of_mem _ hq, h⟩

/-- When the best-queue is set, the best-priority is set as well (unless
both were carried in unchanged). -/
theorem bestFold_bp_some (st : JobCentre.Store) :
    ∀ (names : List String) (bp : Option Int) (bq : Option String)
      (pOpt : Option Int) (q : String),
      JobCentre.bestFold st names (bp, bq) = (pOpt, some q) →
      (bp = pOpt ∧ bq = some q) ∨ ∃ p, pOpt = some p := by
  intro names
  induction names with
  | nil =>
    intro bp bq pOpt q h
    rw [JobCentre.bestFold] at h
    obtain ⟨h1, h2⟩ := Prod.mk.injEq .. ▸ h
    exact Or.inl ⟨h1, h2⟩
  | cons q0 rest ih =>
    intro bp bq pOpt q h
    rw [JobCentre.bestFold] at h
    cases hct : JobCentre.cleanedTop st q0 with
    | none =>
      simp only [hct] at h
      exact ih bp bq pOpt q h
    | some e =>
      simp only [hct] at h
      by_cases hg : JobCentre.gtOpt (-e.negPri) bp = true
      · rw [if_pos hg] at h
        rcases ih _ _ _ _ h with ⟨h1, h2⟩ | h1
        · exact Or.inr ⟨-e.negPri, h1.symm⟩
        · exact Or.inr h1
      · simp only [Bool.not_eq_true] at hg
        simp only [hg, Bool.false_eq_true, if_false] at h
        exact ih bp bq pOpt q h

/-- First-strict-maximum characterisation of the scan accumulator: a final
`(some p, some q)` either was the incoming accumulator (and then nothing in
the list beats `p`), or `q` is in the list with cleaned-top priority `p`,
every queue before `q` has a strictly smaller cleaned-top priority and every
queue after it has a smaller-or-equal one. -/
theorem bestFold_firstmax (st : JobCentre.Store) :
    ∀ (names : List String) (bp : Option Int) (bq : Option String) (p : Int) (q : String),
      JobCentre.bestFold st names (bp, bq) = (some p, some q) →
      ((bp = some p ∧ bq = some q) ∧
        ∀ r ∈ names, ∀ x, JobCentre.cleanedTop st r = some x → -x.negPri ≤ p) ∨
      (∃ pre post, names = pre ++ q :: post ∧
        (∃ e, JobCentre.cleanedTop st q = some e ∧ -e.negPri = p) ∧
        JobCentre.gtOpt p bp = true ∧
        (∀ r ∈ pre, ∀ x, JobCentre.cleanedTop st r = some x → -x.negPri < p) ∧
        (∀ r ∈ post, ∀ x, JobCentre.cleanedTop st r = some x → -x.negPri ≤ p)) := by
  intro names
  induction names with
  | nil =>
    intro bp bq p q h
    rw [JobCentre.bestFold] at h
    obtain ⟨h1, h2⟩ := Prod.mk.injEq .. ▸ h
    exact Or.inl ⟨⟨h1, h2⟩, by simp⟩
  | cons q0 rest ih =>
    intro bp bq p q h
    rw [JobCentre.bestFold] at h
    cases hct : JobCentre.cleanedTop st q0 with
    | none =>
      simp only [hct] at h
      rcases ih bp bq p q h with ⟨⟨h1, h2⟩, hall⟩ | ⟨pre, post, hdec, he, hgt, hpre, hpost⟩
      · refine Or.inl ⟨⟨h1, h2⟩, ?_⟩
        intro r hr x hx
        rcases List.mem_cons.mp hr with rfl | hr2
        · rw [hct] at hx; exact absurd hx (by simp)
        · exact hall r hr2 x hx
      · refine Or.inr ⟨q0 :: pre, post, by rw [hdec, List.cons_append], he, hgt, ?_, hpost⟩
        intro r hr x hx
        rcases List.mem_cons.mp hr with rfl | hr2
        · rw [hct] at hx; exact absurd hx (by simp)
        · exact hpre r hr2 x hx
    | some e0 =>
      simp only [hct] at h
      by_cases hg : JobCentre.gtOpt (-e0.negPri) bp = true
      · rw [if_pos hg] at h
        rcases ih _ _ p q h with ⟨⟨h1, h2⟩, hall⟩ | ⟨pre, post, hdec, he, hgt, hpre, hpost⟩
        · have hp : -e0.negPri = p := Option.some.inj h1
          have hq0 : q0 = q := Option.some.inj h2
          refine Or.inr ⟨[], rest, by rw [List.nil_append, hq0], ⟨e0, hq0 ▸ hct, hp⟩,
            hp ▸ hg, by simp, hall⟩
        · refine Or.inr ⟨q0 :: pre, post, by rw [hdec, List.cons_append], he, ?_, ?_, hpost⟩
          · cases bp with
            | none => rfl
            | some b =>
              have hb1 : b < -e0.negPri := (gtOpt_some_iff _ _).mp hg
              have hb2 : -e0.negPri < p := (gtOpt_some_iff _ _).mp hgt
              exact (gtOpt_some_iff _ _).mpr (hb1.trans hb2)
          · intro r hr x hx
            rcases List.mem_cons.mp hr with rfl | hr2
            · rw [hct] at hx
              obtain rfl : e0 = x := Option.some.inj hx
              exact (gtOpt_some_iff _ _).mp hgt
            · exact hpre r hr2 x hx
      · simp only [Bool.not_eq_true] at hg
        simp only [hg, Bool.false_eq_true, if_false] at h
        rcases ih bp bq p q h with ⟨⟨h1, h2⟩, hall⟩ | ⟨pre, post, hdec, he, hgt, hpre, hpost⟩
        · refine Or.inl ⟨⟨h1, h2⟩, ?_⟩
          intro r hr x hx
          rcases List.mem_cons.mp hr with rfl | hr2
          · rw [hct] at hx
            obtain rfl : e0 = x := Option.some.inj hx
            subst h1
            exact (gtOpt_some_false_iff _ _).mp hg
          · exact hall r hr2 x hx
        · refine Or.inr ⟨q0 :: pre, post, by rw [hdec, List.cons_append], he, hgt, ?_, hpost⟩
          intro r hr x hx
          rcases List.mem_cons.mp hr with rfl | hr2
          · rw [hct] at hx
            obtain rfl : e0 = x := Option.some.inj hx
            cases bp with
            | none => simp [JobCentre.gtOpt] at hg
            | some b =>
              have hble := (gtOpt_some_false_iff _ _).mp hg
              have hlt := (gtOpt_some_iff _ _).mp hgt
              exact lt_of_le_of_lt hble hlt
          · exact hpre r hr2 x hx

/-- C2 counterexample: job 1 (pri 5, insertion sequence 0) is put on queue
`b`, then job 2 (pri 5, insertion sequence 1) on queue `a`.  Both queues
have live tops of equal highest priority, yet `get` over `["a", "b"]`
returns the entry with tie counter 1 — the first-scanned queue wins, not the
lower insertion sequence. -/
theorem C2_counterexample :
    (JobCentre.get_nowait
        (JobCentre.put (JobCentre.put JobCentre.initStore 5 "b" JobCentre.JVal.jnull).1
          5 "a" JobCentre.JVal.jnull).1 ["a", "b"]).2
      = some ⟨-5, 1, 2⟩ ∧
    JobCentre.cleanedTop
        (JobCentre.put (JobCentre.put JobCentre.initStore 5 "b" JobCentre.JVal.jnull).1
          5 "a" JobCentre.JVal.jnull).1 "b"
      = some ⟨-5, 0, 1⟩ ∧
    JobCentre.isStale
        (JobCentre.put (JobCentre.put JobCentre.initStore 5 "b" JobCentre.JVal.jnull).1
          5 "a" JobCentre.JVal.jnull).1.objs ⟨-5, 0, 1⟩
      = false := ⟨rfl, rfl, rfl⟩

/-- C2 amended: the entry returned by `get_nowait` is the cleaned top of
some requested queue such that every queue listed before it has a cleaned
top of strictly lower priority and no listed queue has a higher one: a
cross-queue tie in the highest priority is therefore broken by the order of
the queue names in the request (first listed wins), not by the insertion
sequence. -/
theorem C2_tie_first_scanned (st : JobCentre.Store) (names : List String)
    (e : JobCentre.HeapEntry)
    (h : (JobCentre.get_nowait st names).2 = some e) :
    ∃ pre q post, names = pre ++ q :: post ∧
      JobCentre.cleanedTop st q = some e ∧
      (∀ r ∈ pre, ∀ x, JobCentre.cleanedTop st r = some x → -x.negPri < -e.negPri) ∧
      (∀ r ∈ names, ∀ x, JobCentre.cleanedTop st r = some x → -x.negPri ≤ -e.negPri) := by
  obtain ⟨hf, hqs, hbf⟩ := scan_spec names st none none
  rcases hsc : JobCentre.scan st names none none with ⟨st1, bp1, bq1⟩
  rw [hsc] at hbf hqs
  simp only [JobCentre.get_nowait, hsc] at h
  cases bq1 with
  | none => simp at h
  | some q =>
    by_cases hq0 : q = ""
    · simp [hq0] at h
    · rcases hlq : JobCentre.lookupQ st1.queues q with _ | pq
      · simp [hq0, hlq] at h
      · rcases pq with _ | ⟨e1, restPq⟩
        · simp [hq0, hlq] at h
        · simp only [hlq, if_neg hq0] at h
          have he1 : e1 = e := by
            simpa using h
          subst he1
          have hbf2 : JobCentre.bestFold st names (none, none) = (bp1, some q) := hbf.symm
          rcases bestFold_bp_some st names none none bp1 q hbf2 with ⟨h1, h2⟩ | ⟨p, rfl⟩
          · exact absurd h2 (by simp)
          · rcases bestFold_firstmax st names none none p q hbf2 with
              ⟨⟨h1, _⟩, _⟩ | ⟨pre, post, hdec, ⟨e0, hct0, hp0⟩, _, hpre, hpost⟩
            · exact absurd h1 (by simp)
            · have hmem : q ∈ names := by
                rw [hdec]; exact List.mem_append_right _ (List.mem_cons_self _ _)
              have hq1 := hqs q
              rw [if_pos hmem, hlq] at hq1
              rcases hlq0 : JobCentre.lookupQ st.queues q with _ | pq0
              · rw [hlq0] at hq1; simp at hq1
              · rw [hlq0] at hq1
                simp only [Option.map_some'] at hq1
                have hds := Option.some.inj hq1
                have hct : JobCentre.cleanedTop st q = some e1 := by
                  simp [JobCentre.cleanedTop, hlq0, ← hds]
                have he0 : e0 = e1 := by
                  rw [hct] at hct0
                  exact (Option.some.inj hct0).symm
                subst he0
                refine ⟨pre, q, post, hdec, hct, ?_, ?_⟩
                · intro r hr x hx
                  have := hpre r hr x hx
                  omega
                · intro r hr x hx
                  rw [hdec] at hr
                  rcases List.mem_append.mp hr with hr1 | hr2
                  · have := hpre r hr1 x hx
                    omega
                  · rcases List.mem_cons.mp hr2 with rfl | hr3
                    · rw [hct] at hx
                      rw [Option.some.inj hx]
                    · have := hpost r hr3 x hx
                      omega

/-- Witness for C2 amended at the counterexample store: the returned entry
(tie 1) is the cleaned top of the first-scanned queue `a`. -/
theorem C2_tie_first_scanned_witness :
    ∃ pre q post, (["a", "b"] : List String) = pre ++ q :: post ∧
      JobCentre.cleanedTop
          (JobCentre.put (JobCentre.put JobCentre.initStore 5 "b" JobCentre.JVal.jnull).1
            5 "a" JobCentre.JVal.jnull).1 q = some ⟨-5, 1, 2⟩ ∧
      (∀ r ∈ pre, ∀ x, JobCentre.cleanedTop
          (JobCentre.put (JobCentre.put JobCentre.initStore 5 "b" JobCentre.JVal.jnull).1
            5 "a" JobCentre.JVal.jnull).1 r = some x →
          -x.negPri < -(⟨-5, 1, 2⟩ : JobCentre.HeapEntry).negPri) ∧
      (∀ r ∈ (["a", "b"] : List String), ∀ x, JobCentre.cleanedTop
          (JobCentre.put (JobCentre.put JobCentre.initStore 5 "b" JobCentre.JVal.jnull).1
            5 "a" JobCentre.JVal.jnull).1 r = some x →
          -x.negPri ≤ -(⟨-5, 1, 2⟩ : JobCentre.HeapEntry).negPri) :=
  C2_tie_first_scanned
    (JobCentre.put (JobCentre.put JobCentre.initStore 5 "b" JobCentre.JVal.jnull).1
      5 "a" JobCentre.JVal.jnull).1 ["a", "b"] ⟨-5, 1, 2⟩ rfl

/-- C10: `get_nowait` permanently removes the maximal stale prefix from the
top of every scanned queue's heap (also for queues other than the selected
one and also when the result is no-job), pops exactly the selected live
entry from the selected queue, and leaves everything else — unscanned
queues, the job objects, the jobs dict, the waiters and all counters —
unchanged. -/
theorem C10_get_nowait_frame (st : JobCentre.Store) (names : List String) :
    ((JobCentre.get_nowait st names).1.objs = st.objs ∧
     (JobCentre.get_nowait st names).1.jobsDict = st.jobsDict ∧
     (JobCentre.get_nowait st names).1.waiters = st.waiters ∧
     (JobCentre.get_nowait st names).1.doneSet = st.doneSet ∧
     (JobCentre.get_nowait st names).1.handoffs = st.handoffs ∧
     (JobCentre.get_nowait st names).1.id_counter = st.id_counter ∧
     (JobCentre.get_nowait st names).1.tie_breaker = st.tie_breaker) ∧
    (∀ r, r ∉ names → JobCentre.lookupQ (JobCentre.get_nowait st names).1.queues r
        = JobCentre.lookupQ st.queues r) ∧
    (∀ r pq, JobCentre.lookupQ st.queues r = some pq →
      pq = pq.takeWhile (JobCentre.isStale st.objs) ++ JobCentre.dropStale st.objs pq ∧
      ∀ x ∈ pq.takeWhile (JobCentre.isStale st.objs), JobCentre.isStale st.objs x = true) ∧
    ((JobCentre.get_nowait st names).2 = none →
      ∀ r ∈ names, JobCentre.lookupQ (JobCentre.get_nowait st names).1.queues r
        = (JobCentre.lookupQ st.queues r).map (JobCentre.dropStale st.objs)) ∧
    (∀ e, (JobCentre.get_nowait st names).2 = some e →
      JobCentre.isStale st.objs e = false ∧
      ∃ q, q ∈ names ∧ ∃ t,
        (JobCentre.lookupQ st.queues q).map (JobCentre.dropStale st.objs) = some (e :: t) ∧
        JobCentre.lookupQ (JobCentre.get_nowait st names).1.queues q = some t ∧
        ∀ r ∈ names, r ≠ q → JobCentre.lookupQ (JobCentre.get_nowait st names).1.queues r
          = (JobCentre.lookupQ st.queues r).map (JobCentre.dropStale st.objs)) := by
  have hdecomp : ∀ (r : String) (pq : List JobCentre.HeapEntry),
      JobCentre.lookupQ st.queues r = some pq →
      pq = pq.takeWhile (JobCentre.isStale st.objs) ++ JobCentre.dropStale st.objs pq ∧
      ∀ x ∈ pq.takeWhile (JobCentre.isStale st.objs), JobCentre.isStale st.objs x = true := by
    intro r pq _
    refine ⟨(List.takeWhile_append_dropWhile ..).symm, ?_⟩
    intro x hx
    exact List.mem_takeWhile_imp hx
  obtain ⟨hf, hqs, hbf⟩ := scan_spec names st none none
  rcases hsc : JobCentre.scan st names none none with ⟨st1, bp1, bq1⟩
  rw [hsc] at hf hqs hbf
  obtain ⟨ho, hj, hw, hdn, hh, hic, htb⟩ := hf
  have hplain : ∀ bq2 : Option JobCentre.HeapEntry,
      (JobCentre.get_nowait st names) = (st1, bq2) → bq2 = none →
      ((JobCentre.get_nowait st names).1.objs = st.objs ∧
       (JobCentre.get_nowait st names).1.jobsDict = st.jobsDict ∧
       (JobCentre.get_nowait st names).1.waiters = st.waiters ∧
       (JobCentre.get_nowait st names).1.doneSet = st.doneSet ∧
       (JobCentre.get_nowait st names).1.handoffs = st.handoffs ∧
       (JobCentre.get_nowait st names).1.id_counter = st.id_counter ∧
       (JobCentre.get_nowait st names).1.tie_breaker = st.tie_breaker) ∧
      (∀ r, r ∉ names → JobCentre.lookupQ (JobCentre.get_nowait st names).1.queues r
          = JobCentre.lookupQ st.queues r) ∧
      (∀ r pq, JobCentre.lookupQ st.queues r = some pq →
        pq = pq.takeWhile (JobCentre.isStale st.objs) ++ JobCentre.dropStale st.objs pq ∧
        ∀ x ∈ pq.takeWhile (JobCentre.isStale st.objs), JobCentre.isStale st.objs x = true) ∧
      ((JobCentre.get_nowait st names).2 = none →
        ∀ r ∈ names, JobCentre.lookupQ (JobCentre.get_nowait st names).1.queues r
          = (JobCentre.lookupQ st.queues r).map (JobCentre.dropStale st.objs)) ∧
      (∀ e, (JobCentre.get_nowait st names).2 = some e →
        JobCentre.isStale st.objs e = false ∧
        ∃ q, q ∈ names ∧ ∃ t,
          (JobCentre.lookupQ st.queues q).map (JobCentre.dropStale st.objs) = some (e :: t) ∧
          JobCentre.lookupQ (JobCentre.get_nowait st names).1.queues q = some t ∧
          ∀ r ∈ names, r ≠ q → JobCentre.lookupQ (JobCentre.get_nowait st names).1.queues r
            = (JobCentre.lookupQ st.queues r).map (JobCentre.dropStale st.objs)) := by
    intro bq2 hres hnone
    subst hnone
    rw [hres]
    refine ⟨⟨ho, hj, hw, hdn, hh, hic, htb⟩, ?_, hdecomp, ?_, ?_⟩
    · intro r hr
      rw [hqs r, if_neg hr]
    · intro _ r hr
      rw [hqs r, if_pos hr]
    · intro e he
      exact absurd he (by simp)
  cases bq1 with
  | none =>
    exact hplain none (by simp only [JobCentre.get_nowait, hsc]) rfl
  | some q =>
    by_cases hq0 : q = ""
    · exact hplain none (by simp only [JobCentre.get_nowait, hsc]; rw [if_pos hq0]) rfl
    · rcases hlq : JobCentre.lookupQ st1.queues q with _ | pq
      · exact hplain none
          (by simp only [JobCentre.get_nowait, hsc]; rw [if_neg hq0, hlq]) rfl
      · rcases pq with _ | ⟨e1, t⟩
        · exact hplain none
            (by simp only [JobCentre.get_nowait, hsc]; rw [if_neg hq0, hlq]) rfl
        · have hres : JobCentre.get_nowait st names
              = ({ st1 with queues := JobCentre.setQ st1.queues q t }, some e1) := by
            simp only [JobCentre.get_nowait, hsc]
            rw [if_neg hq0, hlq]
          have hmem : q ∈ names := by
            rcases bestFold_bq_mem st names none none with hno | ⟨q2, hq2, hsome⟩
            · rw [← hbf] at hno
              simp at hno
            · rw [← hbf] at hsome
              simp only at hsome
              obtain rfl := Option.some.inj hsome
              exact hq2
          have hq1 := hqs q
          rw [if_pos hmem, hlq] at hq1
          rw [hres]
          refine ⟨⟨ho, hj, hw, hdn, hh, hic, htb⟩, ?_, hdecomp, ?_, ?_⟩
          · intro r hr
            have hrq : ¬ r = q := fun hrq => hr (hrq ▸ hmem)
            rw [lookupQ_setQ, if_neg hrq, hqs r, if_neg hr]
          · intro hcontra
            exact absurd hcontra (by simp)
          · intro e he
            obtain rfl : e1 = e := Option.some.inj he
            constructor
            · rcases hlq0 : JobCentre.lookupQ st.queues q with _ | pq0
              · rw [hlq0] at hq1
                simp at hq1
              · rw [hlq0] at hq1
                simp only [Option.map_some'] at hq1
                have hds := Option.some.inj hq1
                exact head_dropWhile_false (JobCentre.isStale st.objs) pq0 e1
                  (by rw [JobCentre.dropStale] at hds; rw [← hds]; rfl)
            · refine ⟨q, hmem, t, hq1.symm, ?_, ?_⟩
              · rw [lookupQ_setQ, if_pos rfl]
              · intro r hr hrq
                rw [lookupQ_setQ, if_neg hrq, hqs r, if_pos hr]

/-- Witness for C10 at a concrete store: jobs 1 (pri 3) and 2 (pri 7) are on
queue `q` and job 2 is deleted, leaving a stale heap top.  The get over
`["q", "r"]` returns the live entry of job 1, the stale top having been
permanently removed. -/
theorem C10_get_nowait_frame_witness :
    JobCentre.isStale
        (JobCentre.delete (JobCentre.put (JobCentre.put JobCentre.initStore 3 "q"
          JobCentre.JVal.jnull).1 7 "q" JobCentre.JVal.jnull).1 2).1.objs ⟨-3, 0, 1⟩ = false ∧
    ∃ q, q ∈ (["q", "r"] : List String) ∧ ∃ t,
      (JobCentre.lookupQ
          (JobCentre.delete (JobCentre.put (JobCentre.put JobCentre.initStore 3 "q"
            JobCentre.JVal.jnull).1 7 "q" JobCentre.JVal.jnull).1 2).1.queues q).map
        (JobCentre.dropStale
          (JobCentre.delete (JobCentre.put (JobCentre.put JobCentre.initStore 3 "q"
            JobCentre.JVal.jnull).1 7 "q" JobCentre.JVal.jnull).1 2).1.objs)
        = some (⟨-3, 0, 1⟩ :: t) ∧
      JobCentre.lookupQ
          (JobCentre.get_nowait
            (JobCentre.delete (JobCentre.put (JobCentre.put JobCentre.initStore 3 "q"
              JobCentre.JVal.jnull).1 7 "q" JobCentre.JVal.jnull).1 2).1
            ["q", "r"]).1.queues q = some t ∧
      ∀ r ∈ (["q", "r"] : List String), r ≠ q →
        JobCentre.lookupQ
            (JobCentre.get_nowait
              (JobCentre.delete (JobCentre.put (JobCentre.put JobCentre.initStore 3 "q"
                JobCentre.JVal.jnull).1 7 "q" JobCentre.JVal.jnull).1 2).1
              ["q", "r"]).1.queues r
          = (JobCentre.lookupQ
              (JobCentre.delete (JobCentre.put (JobCentre.put JobCentre.initStore 3 "q"
                JobCentre.JVal.jnull).1 7 "q" JobCentre.JVal.jnull).1 2).1.queues r).map
            (JobCentre.dropStale
              (JobCentre.delete (JobCentre.put (JobCentre.put JobCentre.initStore 3 "q"
                JobCentre.JVal.jnull).1 7 "q" JobCentre.JVal.jnull).1 2).1.objs) :=
  (C10_get_nowait_frame
    (JobCentre.delete (JobCentre.put (JobCentre.put JobCentre.initStore 3 "q"
      JobCentre.JVal.jnull).1 7 "q" JobCentre.JVal.jnull).1 2).1
    ["q", "r"]).2.2.2.2 ⟨-3, 0, 1⟩ rfl

theorem unescape_cons_of_ne (c : Nat) (l : List Nat) (h : c ≠ 92) :
    LRCP.unescape_data (c :: l) = c :: LRCP.unescape_data l := by
  rw [LRCP.unescape_data.eq_def]
  split <;> simp_all

theorem unescape_pair_backslash (l : List Nat) :
    LRCP.unescape_data (92 :: 92 :: l) = 92 :: LRCP.unescape_data l := rfl

theorem unescape_pair_slash (l : List Nat) :
    LRCP.unescape_data (92 :: 47 :: l) = 47 :: LRCP.unescape_data l := rfl

/-- Unescaping inverts the per-byte escaping of a whole buffer. -/
theorem unescape_join_escape : ∀ l : List Nat,
    LRCP.unescape_data ((l.map LRCP.escape_char).flatten) = l := by
  intro l
  induction l with
  | nil => rfl
  | cons c rest ih =>
    simp only [List.map_cons, List.flatten_cons]
    by_cases h92 : c = 92
    · subst h92
      rw [show LRCP.escape_char 92 = [92, 92] from by simp [LRCP.escape_char]]
      rw [List.cons_append, List.cons_append, List.nil_append,
        unescape_pair_backslash, ih]
    · by_cases h47 : c = 47
      · subst h47
        rw [show LRCP.escape_char 47 = [92, 47] from by simp [LRCP.escape_char]]
        rw [List.cons_append, List.cons_append, List.nil_append,
          unescape_pair_slash, ih]
      · rw [show LRCP.escape_char c = [c] from by simp [LRCP.escape_char, h92, h47]]
        rw [List.cons_append, List.nil_append, unescape_cons_of_ne c _ h92, ih]

/-- The escaped form of one byte is as long as its wire cost. -/
theorem escape_char_length (c : Nat) :
    (LRCP.escape_char c).length = if c = 92 ∨ c = 47 then 2 else 1 := by
  by_cases h92 : c = 92
  · simp [LRCP.escape_char, h92]
  · by_cases h47 : c = 47
    · simp [LRCP.escape_char, h92, h47]
    · simp [LRCP.escape_char, h92, h47]

/-- Characterisation of the greedy packer: it takes some prefix of the
buffer, emits its escaped bytes (reverse-accumulated) and counts its raw
length. -/
theorem pack_spec : ∀ (buf : List Nat) (avail : Nat) (cRev : List Nat) (cc pk : Nat),
    ∃ k, k ≤ buf.length ∧
      LRCP.pack_greedy avail buf cRev cc pk
        = ((((buf.take k).map LRCP.escape_char).flatten).reverse ++ cRev, pk + k) := by
  intro buf
  induction buf with
  | nil =>
    intro avail cRev cc pk
    exact ⟨0, by simp [LRCP.pack_greedy]⟩
  | cons c rest ih =>
    intro avail cRev cc pk
    rw [LRCP.pack_greedy]
    by_cases hstop : cc + (if c = 92 ∨ c = 47 then 2 else 1) > avail
    · refine ⟨0, by simp, ?_⟩
      simp only [hstop, if_pos]
      simp
    · simp only [hstop, if_neg, if_false]
      obtain ⟨k, hk, heq⟩ := ih avail ((LRCP.escape_char c).reverse ++ cRev) (cc + _) (pk + 1)
      refine ⟨k + 1, by simpa using Nat.succ_le_succ hk, ?_⟩
      rw [heq]
      simp only [List.take_succ_cons, List.map_cons, List.flatten_cons,
        List.reverse_append, List.append_assoc, Prod.mk.injEq]
      exact ⟨trivial, by omega⟩

/-- The packed chunk never exceeds the available wire budget. -/
theorem pack_len : ∀ (buf : List Nat) (avail : Nat) (cRev : List Nat) (cc pk : Nat),
    cc = cRev.length → cc ≤ avail →
    (LRCP.pack_greedy avail buf cRev cc pk).1.length ≤ avail := by
  intro buf
  induction buf with
  | nil =>
    intro avail cRev cc pk hinv hle
    simpa [LRCP.pack_greedy, ← hinv] using hle
  | cons c rest ih =>
    intro avail cRev cc pk hinv hle
    rw [LRCP.pack_greedy]
    by_cases hstop : cc + (if c = 92 ∨ c = 47 then 2 else 1) > avail
    · simp only [hstop, if_pos]
      simpa [← hinv] using hle
    · simp only [hstop, if_neg, if_false]
      refine ih avail _ _ (pk + 1) ?_ (by omega)
      simp [escape_char_length, hinv, Nat.add_comm]

/-- Wire form of a `data` packet: header, escaped payload, trailing slash. -/
theorem wire_dataParts (sid : Int) (pos : Nat) (chunk : List Nat) :
    LRCP.wire (LRCP.dataParts sid pos chunk)
      = LRCP.headerList sid pos ++ chunk ++ [47] := by
  simp [LRCP.wire, LRCP.dataParts, LRCP.headerList, List.intercalate, LRCP.strData]

/-- Invariants of the pipelining loop: every emitted packet starts at or
after the initial offset and strictly inside the send window, its wire form
fits in one datagram, the first packet starts exactly at the initial offset,
and consecutive packets advance by exactly the raw length of the preceding
payload. -/
theorem retransmit_loop_spec (sid : Int) (base : Nat) (tx : List Nat) :
    ∀ (fuel off : Nat),
      (∀ p ∈ LRCP.retransmit_loop sid base tx fuel off,
          base + off ≤ p.1 ∧ p.1 < base + LRCP.SEND_WINDOW_SIZE ∧
          (LRCP.wire (LRCP.dataParts sid p.1 p.2)).length ≤ LRCP.MAX_PACKET_SIZE) ∧
      (∀ p ∈ (LRCP.retransmit_loop sid base tx fuel off).head?, p.1 = base + off) ∧
      List.Chain' (fun p q => q.1 = p.1 + (LRCP.unescape_data p.2).length)
        (LRCP.retransmit_loop sid base tx fuel off) := by
  intro fuel
  induction fuel with
  | zero =>
    intro off
    simp [LRCP.retransmit_loop]
  | succ fuel ih =>
    intro off
    rw [LRCP.retransmit_loop]
    by_cases hcond : off < tx.length ∧ off < LRCP.SEND_WINDOW_SIZE
    · rw [if_pos hcond]
      by_cases havail :
          (LRCP.MAX_PACKET_SIZE : Int) - (LRCP.headerList sid (base + off)).length - 1 ≤ 0
      · rw [if_pos havail]
        simp
      · rw [if_neg havail]
        by_cases hpk :
            (LRCP.pack_greedy ((LRCP.MAX_PACKET_SIZE : Int)
                - (LRCP.headerList sid (base + off)).length - 1).toNat
              (tx.drop off) [] 0 0).2 = 0
        · rw [if_pos hpk]
          simp
        · rw [if_neg hpk]
          obtain ⟨k, hk, heq⟩ := pack_spec (tx.drop off)
            ((LRCP.MAX_PACKET_SIZE : Int)
              - (LRCP.headerList sid (base + off)).length - 1).toNat [] 0 0
          have hpr1 : (LRCP.pack_greedy ((LRCP.MAX_PACKET_SIZE : Int)
                - (LRCP.headerList sid (base + off)).length - 1).toNat
              (tx.drop off) [] 0 0).1
              = ((((tx.drop off).take k).map LRCP.escape_char).flatten).reverse ++ [] := by
            rw [heq]
          have hpr2 : (LRCP.pack_greedy ((LRCP.MAX_PACKET_SIZE : Int)
                - (LRCP.headerList sid (base + off)).length - 1).toNat
              (tx.drop off) [] 0 0).2 = k := by
            rw [heq]
            simp
          have hraw : (LRCP.unescape_data
              (LRCP.pack_greedy ((LRCP.MAX_PACKET_SIZE : Int)
                - (LRCP.headerList sid (base + off)).length - 1).toNat
                (tx.drop off) [] 0 0).1.reverse).length = k := by
            rw [hpr1]
            simp only [List.append_nil, List.reverse_reverse]
            rw [unescape_join_escape, List.length_take]
            omega
          have hchunk : (LRCP.pack_greedy ((LRCP.MAX_PACKET_SIZE : Int)
                - (LRCP.headerList sid (base + off)).length - 1).toNat
              (tx.drop off) [] 0 0).1.length
              ≤ ((LRCP.MAX_PACKET_SIZE : Int)
                - (LRCP.headerList sid (base + off)).length - 1).toNat :=
            pack_len _ _ [] 0 0 rfl (Nat.zero_le _)
          have hwire : (LRCP.wire (LRCP.dataParts sid (base + off)
              (LRCP.pack_greedy ((LRCP.MAX_PACKET_SIZE : Int)
                - (LRCP.headerList sid (base + off)).length - 1).toNat
                (tx.drop off) [] 0 0).1.reverse)).length ≤ LRCP.MAX_PACKET_SIZE := by
            rw [wire_dataParts]
            simp only [List.length_append, List.length_reverse, List.length_cons,
              List.length_nil]
            simp only [LRCP.MAX_PACKET_SIZE] at havail hchunk ⊢
            omega
          obtain ⟨ihall, ihhead, ihchain⟩ := ih (off
            + (LRCP.pack_greedy ((LRCP.MAX_PACKET_SIZE : Int)
                - (LRCP.headerList sid (base + off)).length - 1).toNat
              (tx.drop off) [] 0 0).2)
          refine ⟨?_, ?_, ?_⟩
          · intro p hp
            rcases List.mem_cons.mp hp with rfl | hp2
            · exact ⟨le_refl _, by omega, hwire⟩
            · obtain ⟨h1, h2, h3⟩ := ihall p hp2
              exact ⟨by omega, h2, h3⟩
          · intro p hp
            simp only [List.head?_cons, Option.mem_def, Option.some.injEq] at hp
            rw [← hp]
          · refine List.chain'_cons'.mpr ⟨?_, ihchain⟩
            intro b hb
            have hb1 := ihhead b hb
            rw [hb1, hraw, hpr2]
            omega
    · rw [if_neg hcond]
      simp

/-- C7 amended: the windowed send emits exactly the packets of the
pipelining loop; the burst starts at `bytes_acked`, positions are
consecutive (each advances by the raw length of the previous payload), each
packet starts strictly inside the send window — so the burst covers at most
`SEND_WINDOW_SIZE - 1` plus one final packet's payload of raw bytes, not at
most `SEND_WINDOW_SIZE` — and every packet's complete wire size is at most
999 bytes. -/
theorem C7_windowed_send (s : LRCP.LRCPSession) (now : ℚ) :
    ((LRCP.retransmit_data s now).2
        = (LRCP.retransmit_loop s.session_id s.bytes_sent_acked s.tx_buffer
            (s.tx_buffer.length + 1) 0).map
          (fun p => LRCP.dataParts s.session_id p.1 p.2)) ∧
    (∀ p ∈ (LRCP.retransmit_loop s.session_id s.bytes_sent_acked s.tx_buffer
        (s.tx_buffer.length + 1) 0).head?, p.1 = s.bytes_sent_acked) ∧
    List.Chain' (fun p q => q.1 = p.1 + (LRCP.unescape_data p.2).length)
      (LRCP.retransmit_loop s.session_id s.bytes_sent_acked s.tx_buffer
        (s.tx_buffer.length + 1) 0) ∧
    (∀ p ∈ LRCP.retransmit_loop s.session_id s.bytes_sent_acked s.tx_buffer
        (s.tx_buffer.length + 1) 0,
      s.bytes_sent_acked ≤ p.1 ∧ p.1 < s.bytes_sent_acked + LRCP.SEND_WINDOW_SIZE ∧
      (LRCP.wire (LRCP.dataParts s.session_id p.1 p.2)).length ≤ LRCP.MAX_PACKET_SIZE) := by
  obtain ⟨hall, hhead, hchain⟩ := retransmit_loop_spec s.session_id s.bytes_sent_acked
    s.tx_buffer (s.tx_buffer.length + 1) 0
  refine ⟨?_, by simpa using hhead, hchain, by simpa using hall⟩
  by_cases h : s.tx_buffer = []
  · simp [LRCP.retransmit_data, h, LRCP.retransmit_loop]
  · simp [LRCP.retransmit_data, h]

/-- Witness for C7 amended on a concrete session with a 2-byte buffer. -/
theorem C7_windowed_send_witness :
    (LRCP.retransmit_data (⟨0, 0, false, 0, 0, 0, 0, [97, 10], []⟩ : LRCP.LRCPSession) 1).2
      = (LRCP.retransmit_loop 0 0 [97, 10] ((2 : Nat) + 1) 0).map
          (fun p => LRCP.dataParts 0 p.1 p.2) ∧
    ((0 : Nat), ([97, 10] : List Nat)).1 = 0 ∧
    (LRCP.wire (LRCP.dataParts 0 ((0 : Nat), ([97, 10] : List Nat)).1
        ((0 : Nat), ([97, 10] : List Nat)).2)).length ≤ LRCP.MAX_PACKET_SIZE := by
  refine ⟨(C7_windowed_send ⟨0, 0, false, 0, 0, 0, 0, [97, 10], []⟩ 1).1, ?_, ?_⟩
  · exact (C7_windowed_send ⟨0, 0, false, 0, 0, 0, 0, [97, 10], []⟩ 1).2.1
      ((0 : Nat), ([97, 10] : List Nat)) (by decide)
  · exact ((C7_windowed_send ⟨0, 0, false, 0, 0, 0, 0, [97, 10], []⟩ 1).2.2.2
      ((0 : Nat), ([97, 10] : List Nat)) (by decide)).2.2

theorem unescape_replicate97 : ∀ k : Nat,
    LRCP.unescape_data (List.replicate k 97) = List.replicate k 97 := by
  intro k
  induction k with
  | zero => rfl
  | succ n ih =>
    rw [List.replicate_succ, unescape_cons_of_ne 97 _ (by decide), ih]

/-- The greedy packer on an all-`a` buffer takes `min n available` bytes. -/
theorem pack_replicate97 : ∀ (n avail cc pk : Nat) (cRev : List Nat), cc ≤ avail →
    LRCP.pack_greedy avail (List.replicate n 97) cRev cc pk
      = (List.replicate (min n (avail - cc)) 97 ++ cRev, pk + min n (avail - cc)) := by
  intro n
  induction n with
  | zero =>
    intro avail cc pk cRev hle
    simp [LRCP.pack_greedy]
  | succ n ih =>
    intro avail cc pk cRev hle
    rw [List.replicate_succ, LRCP.pack_greedy]
    have hcost : (if (97 : Nat) = 92 ∨ (97 : Nat) = 47 then 2 else 1) = 1 := by decide
    rw [hcost]
    by_cases hstop : cc + 1 > avail
    · rw [if_pos hstop]
      have hz : avail - cc = 0 := by omega
      rw [hz]
      simp
    · rw [if_neg hstop]
      have hesc : (LRCP.escape_char 97).reverse = [97] := by decide
      rw [hesc]
      rw [show ([97] ++ cRev) = 97 :: cRev from rfl]
      rw [ih avail (cc + 1) (pk + 1) (97 :: cRev) (by omega)]
      have hmin : min (n + 1) (avail - cc) = min n (avail - cc - 1) + 1 := by omega
      rw [hmin, List.replicate_succ']
      simp only [List.append_assoc, List.singleton_append, Prod.mk.injEq]
      exact ⟨rfl, by omega⟩

/-- One successful iteration of the pipelining loop. -/
theorem loop_step (sid : Int) (base : Nat) (tx : List Nat) (fuel off : Nat)
    (h1 : off < tx.length) (h2 : off < LRCP.SEND_WINDOW_SIZE)
    (h3 : ¬ ((LRCP.MAX_PACKET_SIZE : Int) - (LRCP.headerList sid (base + off)).length - 1 ≤ 0))
    (h4 : (LRCP.pack_greedy ((LRCP.MAX_PACKET_SIZE : Int)
        - (LRCP.headerList sid (base + off)).length - 1).toNat (tx.drop off) [] 0 0).2 ≠ 0) :
    LRCP.retransmit_loop sid base tx (fuel + 1) off
      = (base + off,
         (LRCP.pack_greedy ((LRCP.MAX_PACKET_SIZE : Int)
            - (LRCP.headerList sid (base + off)).length - 1).toNat (tx.drop off) [] 0 0).1.reverse)
        :: LRCP.retransmit_loop sid base tx fuel
            (off + (LRCP.pack_greedy ((LRCP.MAX_PACKET_SIZE : Int)
              - (LRCP.headerList sid (base + off)).length - 1).toNat (tx.drop off) [] 0 0).2) := by
  rw [LRCP.retransmit_loop, if_pos ⟨h1, h2⟩, if_neg h3, if_neg h4]

/-- The loop stops once the offset leaves the send window. -/
theorem loop_stop (sid : Int) (base : Nat) (tx : List Nat) (fuel off : Nat)
    (h : ¬ (off < tx.length ∧ off < LRCP.SEND_WINDOW_SIZE)) :
    LRCP.retransmit_loop sid base tx (fuel + 1) off = [] := by
  rw [LRCP.retransmit_loop, if_neg h]

/-- C7 counterexample: with 5000 pending bytes (all `a`) the windowed send
emits five packets at offsets 0, 988, 1974, 2959 and 3944; the last packet
begins inside the window but carries 985 further bytes, so the burst covers
4929 raw bytes in total — more than the claimed 4000-byte bound. -/
theorem C7_counterexample :
    (LRCP.retransmit_data
        (⟨0, 0, false, 0, 0, 0, 0, List.replicate 5000 97, []⟩ : LRCP.LRCPSession) 0).2
      = (LRCP.retransmit_loop 0 0 (List.replicate 5000 97) 5001 0).map
          (fun p => LRCP.dataParts 0 p.1 p.2) ∧
    ((LRCP.retransmit_loop 0 0 (List.replicate 5000 97) 5001 0).map
        (fun p => (LRCP.unescape_data p.2).length)).sum = 4929 ∧
    4000 < 4929 := by
  have l5 : LRCP.retransmit_loop 0 0 (List.replicate 5000 97) 4996 4929 = [] := by
    rw [show (4996 : Nat) = 4995 + 1 from rfl]
    exact loop_stop 0 0 _ 4995 4929 (by rw [List.length_replicate]; decide)
  have hp4 : LRCP.pack_greedy ((LRCP.MAX_PACKET_SIZE : Int)
      - (LRCP.headerList 0 (0 + 3944)).length - 1).toNat
      ((List.replicate 5000 97).drop 3944) [] 0 0
      = (List.replicate 985 97 ++ [], 0 + 985) := by
    rw [List.drop_replicate]
    rw [show ((LRCP.MAX_PACKET_SIZE : Int)
      - (LRCP.headerList 0 (0 + 3944)).length - 1).toNat = 985 from by decide]
    rw [pack_replicate97 (5000 - 3944) 985 0 0 [] (Nat.zero_le _)]
    rw [show min (5000 - 3944) (985 - 0) = 985 from by decide]
  have l4 : LRCP.retransmit_loop 0 0 (List.replicate 5000 97) 4997 3944
      = [(3944, List.replicate 985 97)] := by
    rw [show (4997 : Nat) = 4996 + 1 from rfl]
    rw [loop_step 0 0 (List.replicate 5000 97) 4996 3944
      (by rw [List.length_replicate]; decide) (by decide) (by decide) (by rw [hp4]; decide)]
    rw [hp4]
    dsimp only
    rw [Nat.zero_add 3944, Nat.zero_add 985]
    rw [show (3944 : Nat) + 985 = 4929 from rfl]
    rw [l5, List.append_nil, List.reverse_replicate]
  have hp3 : LRCP.pack_greedy ((LRCP.MAX_PACKET_SIZE : Int)
      - (LRCP.headerList 0 (0 + 2959)).length - 1).toNat
      ((List.replicate 5000 97).drop 2959) [] 0 0
      = (List.replicate 985 97 ++ [], 0 + 985) := by
    rw [List.drop_replicate]
    rw [show ((LRCP.MAX_PACKET_SIZE : Int)
      - (LRCP.headerList 0 (0 + 2959)).length - 1).toNat = 985 from by decide]
    rw [pack_replicate97 (5000 - 2959) 985 0 0 [] (Nat.zero_le _)]
    rw [show min (5000 - 2959) (985 - 0) = 985 from by decide]
  have l3 : LRCP.retransmit_loop 0 0 (List.replicate 5000 97) 4998 2959
      = [(2959, List.replicate 985 97), (3944, List.replicate 985 97)] := by
    rw [show (4998 : Nat) = 4997 + 1 from rfl]
    rw [loop_step 0 0 (List.replicate 5000 97) 4997 2959
      (by rw [List.length_replicate]; decide) (by decide) (by decide) (by rw [hp3]; decide)]
    rw [hp3]
    dsimp only
    rw [Nat.zero_add 2959, Nat.zero_add 985]
    rw [show (2959 : Nat) + 985 = 3944 from rfl]
    rw [l4, List.append_nil, List.reverse_replicate]
  have hp2 : LRCP.pack_greedy ((LRCP.MAX_PACKET_SIZE : Int)
      - (LRCP.headerList 0 (0 + 1974)).length - 1).toNat
      ((List.replicate 5000 97).drop 1974) [] 0 0
      = (List.replicate 985 97 ++ [], 0 + 985) := by
    rw [List.drop_replicate]
    rw [show ((LRCP.MAX_PACKET_SIZE : Int)
      - (LRCP.headerList 0 (0 + 1974)).length - 1).toNat = 985 from by decide]
    rw [pack_replicate97 (5000 - 1974) 985 0 0 [] (Nat.zero_le _)]
    rw [show min (5000 - 1974) (985 - 0) = 985 from by decide]
  have l2 : LRCP.retransmit_loop 0 0 (List.replicate 5000 97) 4999 1974
      = [(1974, List.replicate 985 97), (2959, List.replicate 985 97),
         (3944, List.replicate 985 97)] := by
    rw [show (4999 : Nat) = 4998 + 1 from rfl]
    rw [loop_step 0 0 (List.replicate 5000 97) 4998 1974
      (by rw [List.length_replicate]; decide) (by decide) (by decide) (by rw [hp2]; decide)]
    rw [hp2]
    dsimp only
    rw [Nat.zero_add 1974, Nat.zero_add 985]
    rw [show (1974 : Nat) + 985 = 2959 from rfl]
    rw [l3, List.append_nil, List.reverse_replicate]
  have hp1 : LRCP.pack_greedy ((LRCP.MAX_PACKET_SIZE : Int)
      - (LRCP.headerList 0 (0 + 988)).length - 1).toNat
      ((List.replicate 5000 97).drop 988) [] 0 0
      = (List.replicate 986 97 ++ [], 0 + 986) := by
    rw [List.drop_replicate]
    rw [show ((LRCP.MAX_PACKET_SIZE : Int)
      - (LRCP.headerList 0 (0 + 988)).length - 1).toNat = 986 from by decide]
    rw [pack_replicate97 (5000 - 988) 986 0 0 [] (Nat.zero_le _)]
    rw [show min (5000 - 988) (986 - 0) = 986 from by decide]
  have l1 : LRCP.retransmit_loop 0 0 (List.replicate 5000 97) 5000 988
      = [(988, List.replicate 986 97), (1974, List.replicate 985 97),
         (2959, List.replicate 985 97), (3944, List.replicate 985 97)] := by
    rw [show (5000 : Nat) = 4999 + 1 from rfl]
    rw [loop_step 0 0 (List.replicate 5000 97) 4999 988
      (by rw [List.length_replicate]; decide) (by decide) (by decide) (by rw [hp1]; decide)]
    rw [hp1]
    dsimp only
    rw [Nat.zero_add 988, Nat.zero_add 986]
    rw [show (988 : Nat) + 986 = 1974 from rfl]
    rw [l2, List.append_nil, List.reverse_replicate]
  have hp0 : LRCP.pack_greedy ((LRCP.MAX_PACKET_SIZE : Int)
      - (LRCP.headerList 0 (0 + 0)).length - 1).toNat
      ((List.replicate 5000 97).drop 0) [] 0 0
      = (List.replicate 988 97 ++ [], 0 + 988) := by
    rw [List.drop_replicate]
    rw [show ((LRCP.MAX_PACKET_SIZE : Int)
      - (LRCP.headerList 0 (0 + 0)).length - 1).toNat = 988 from by decide]
    rw [pack_replicate97 (5000 - 0) 988 0 0 [] (Nat.zero_le _)]
    rw [show min (5000 - 0) (988 - 0) = 988 from by decide]
  have l0 : LRCP.retransmit_loop 0 0 (List.replicate 5000 97) 5001 0
      = [(0, List.replicate 988 97), (988, List.replicate 986 97),
         (1974, List.replicate 985 97), (2959, List.replicate 985 97),
         (3944, List.replicate 985 97)] := by
    rw [show (5001 : Nat) = 5000 + 1 from rfl]
    rw [loop_step 0 0 (List.replicate 5000 97) 5000 0
      (by rw [List.length_replicate]; decide) (by decide) (by decide) (by rw [hp0]; decide)]
    rw [hp0]
    dsimp only
    rw [l1, List.append_nil, List.reverse_replicate]
  have hne : List.replicate 5000 (97 : Nat) ≠ [] := by
    intro h
    have hlen := congrArg List.length h
    rw [List.length_replicate] at hlen
    exact absurd hlen (by decide)
  refine ⟨?_, ?_, by decide⟩
  · rw [LRCP.retransmit_data, if_neg hne]
    dsimp only
    rw [List.length_replicate]
  · rw [l0, List.map_cons, List.map_cons, List.map_cons, List.map_cons, List.map_cons,
      List.map_nil]
    dsimp only
    rw [unescape_replicate97 988, unescape_replicate97 986, unescape_replicate97 985]
    rw [List.length_replicate, List.length_replicate, List.length_replicate]
    decide
